import Mathlib

/-!
A shallow embedding of `mm/zswap.c` (compressed swap cache, frontswap backend).

Modelling conventions:
* Machine integers: counters (`u64`) and sizes are `Nat`; the signed `refcount`
  (a C `int` mutated only under the tree lock) and the `atomic_t` counters are `Int`.
* Pages and compressed payloads are byte lists (`List Nat`).
* The red-black tree keyed by swap offset is a list of entry ids together with a
  partial map from ids to entry records; `zswap_rb_search` scans for the id whose
  record carries the requested offset.  The intrusive LRU list is a list of ids,
  head = least recently used.
* External collaborators are oracles: the crypto codec is a pair of functions in
  `ZswapEnv` (`none` = codec error), allocation successes (`kmem_cache_alloc`,
  `zs_malloc`) are booleans in `StoreOracles`, and the swap-cache collaborator of
  the writeback path is a `WbOutcome` stream.
* The code is modelled with `CONFIG_ZSWAP_ENABLE_WRITEBACK` defined, as the spec
  describes the writeback engine.
-/

namespace Zswap

/-- Byte strings standing for page and payload contents. -/
abbrev Bytes := List Nat

/-- 4 KiB pages, as on the platforms this driver targets. -/
def PAGE_SIZE : Nat := 4096

/-- `#define ZSWAP_MAX_OUTSTANDING_FLUSHES 64` (zswap.c line 113). -/
def ZSWAP_MAX_OUTSTANDING_FLUSHES : Int := 64

/-- `#define ZSWAP_TMPPAGE_POOL_PAGES 16` (zswap.c line 715). -/
def ZSWAP_TMPPAGE_POOL_PAGES : Nat := 16

/-- Linux errno values used by the driver (returned negated). -/
def E2BIG : Int := 7

def ENOMEM : Int := 12

def EEXIST : Int := 17

def ENODEV : Int := 19

def EINVAL : Int := 22

/-- `struct zswap_entry` (zswap.c lines 199-206): offset key, zsmalloc handle,
compressed length, and the lock-protected signed refcount.  The intrusive
`rb_node`/`list_head` linkage is represented by membership of the entry's id in
the `rb` and `lru` lists of the state. -/
structure ZswapEntry where
  offset : Nat
  handle : Nat
  length : Nat
  refcount : Int
deriving Repr, DecidableEq

/-- External environment: the per-CPU crypto codec (`zswap_comp_op` with
`crypto_comp_compress` / `crypto_comp_decompress`; `none` models a codec error)
and the live tunable `zswap_max_compression_ratio` (default 80, line 103). -/
structure ZswapEnv where
  compress : Bytes → Option Bytes
  decompress : Bytes → Option Bytes
  max_compression_ratio : Nat

/-- One `struct zswap_tree` (zswap.c lines 214-220) together with the entry
records reachable from it, the contents of its zsmalloc pool (handle ↦ bytes),
and the process-wide statistics and scratch resources the frontswap hooks touch.

`entries` is the heap of live `struct zswap_entry` records, addressed by an
allocation id; `rb` lists the ids linked into the red-black tree; `lru` lists
ids on the LRU, head first.  `tmppages` is the number of frames currently in
the scratch ring (`zswap_tmppage_list`, 16 at boot); `cpuBufHeld` tracks
whether `zswap_dstmem` (the per-CPU buffer of `get_cpu_var`/`put_cpu_var`) is
held. -/
structure ZswapState where
  entries : Nat → Option ZswapEntry
  rb : List Nat
  lru : List Nat
  pool : Nat → Option Bytes
  nextEntry : Nat
  nextHandle : Nat
  tmppages : Nat
  cpuBufHeld : Bool
  outstandingWritebacks : Int
  stored_pages : Int
  duplicate_entry : Nat
  reject_compress_poor : Nat
  reject_kmemcache_fail : Nat
  reject_tmppage_fail : Nat
  reject_zsmalloc_fail : Nat
  writeback_attempted : Nat
  saved_by_writeback : Nat
  written_back_pages : Nat

/-- Read an entry record by id. -/
def getEntry (s : ZswapState) (id : Nat) : Option ZswapEntry :=
  s.entries id

/-- Mutate the entry record at `id` in place (field assignments through the
entry pointer in the C code). -/
def setEntry (s : ZswapState) (id : Nat) (f : ZswapEntry → ZswapEntry) : ZswapState :=
  { s with entries := fun i => if i = id then (s.entries id).map f else s.entries i }

/-- The offset field of the record at `id`, when the record is live. -/
def entryOffset (s : ZswapState) (id : Nat) : Option Nat :=
  (getEntry s id).map (·.offset)

/-- `zswap_rb_search` (zswap.c lines 273-288): find the tree node whose entry
has the given offset.  Returns the id together with the record. -/
def zswap_rb_search (s : ZswapState) (off : Nat) : Option (Nat × ZswapEntry) :=
  s.rb.findSome? (fun id =>
    match getEntry s id with
    | some e => if e.offset = off then some (id, e) else none
    | none => none)

/-- Number of rbtree nodes carrying a given offset (1 in all well-formed
states: the offset is the unique key of the tree). -/
def atOffCount (s : ZswapState) (off : Nat) : Nat :=
  (s.rb.filter (fun id => entryOffset s id == some off)).length

/-- `zswap_entry_get` (zswap.c lines 259-262): `entry->refcount++`. -/
def zswap_entry_get (s : ZswapState) (id : Nat) : ZswapState :=
  setEntry s id (fun e => { e with refcount := e.refcount + 1 })

/-- `zswap_entry_put` (zswap.c lines 264-268): `entry->refcount--` and return
the post-decrement value. -/
def zswap_entry_put (s : ZswapState) (id : Nat) : Int × ZswapState :=
  match getEntry s id with
  | some e => (e.refcount - 1, setEntry s id (fun e => { e with refcount := e.refcount - 1 }))
  | none => (0, s)

/-- `zswap_free_entry` (zswap.c lines 453-458): `zs_free` the handle, free the
entry record, decrement the stored-page counter. -/
def zswap_free_entry (s : ZswapState) (id : Nat) (handle : Nat) : ZswapState :=
  { s with
    pool := fun h => if h = handle then none else s.pool h
    entries := fun i => if i = id then none else s.entries i
    stored_pages := s.stored_pages - 1 }

/-- Outcome of `zswap_get_swap_cache_page` (zswap.c lines 493-566), an external
swap-cache collaborator; for the `new` case, whether the subsequent
non-blocking `__swap_writepage` submission succeeded (returned 0). -/
inductive WbOutcome where
  | nomem
  | exist
  | new (writepageOk : Bool)

/-- `zswap_writeback_entry` (zswap.c lines 580-634).  The three arms of the
switch on `zswap_get_swap_cache_page`.  In the `new` arm the entry's payload is
decompressed into the locked swap-cache page; the code asserts success with
`BUG_ON(ret)` and `BUG_ON(dlen != PAGE_SIZE)` (a failed assertion halts the
kernel, it is not a return path), so the data movement into the external page
is elided here.  `__swap_writepage` returning 0 increments
`zswap_outstanding_writebacks` (lines 629-630); the function returns 0 in the
`new` arm either way. -/
def zswap_writeback_entry (o : WbOutcome) (s : ZswapState) : Int × ZswapState :=
  match o with
  | .nomem => (-ENOMEM, s)
  | .exist => (-EEXIST, s)
  | .new writepageOk =>
      if writepageOk then
        (0, { s with outstandingWritebacks := s.outstandingWritebacks + 1 })
      else
        (0, s)

/-- The accounting tail of one iteration of the writeback loop (zswap.c lines
674-706), entered with the entry still pinned: drop the iteration's own
reference, on writeback success also drop the creation reference, then
dispatch on the post-decrement refcount — re-add to the LRU head at 1, erase
from the tree at 0, and free entry and handle whenever it is ≤ 0.  Returns
whether the entry was freed. -/
def writebackRequeue (s : ZswapState) (did handle : Nat) (ret : Int) : Bool × ZswapState :=
  let p1 := zswap_entry_put s did
  let p2 := if ret = 0 then zswap_entry_put p1.2 did else p1
  let rc := p2.1
  let s4 := if rc = 1 then { p2.2 with lru := did :: p2.2.lru } else p2.2
  let s5 := if rc = 0 then { s4 with rb := s4.rb.filter (fun i => i != did) } else s4
  if rc ≤ 0 then (true, zswap_free_entry s5 did handle) else (false, s5)

/-- `zswap_writeback_entries` (zswap.c lines 640-709): attempt up to `nr`
LRU-ordered evictions, returning the number of entries actually freed and the
resulting state.  Each iteration first consults the outstanding-writeback
counter (`> ZSWAP_MAX_OUTSTANDING_FLUSHES` breaks), dequeues and pins the LRU
head, calls `zswap_writeback_entry` (outcome supplied by `os`), and finishes
with `writebackRequeue`. -/
def zswap_writeback_entries : (Nat → WbOutcome) → Nat → ZswapState → Nat × ZswapState
  | _, 0, s => (0, s)
  | os, n + 1, s =>
    if s.outstandingWritebacks > ZSWAP_MAX_OUTSTANDING_FLUSHES then (0, s)
    else
      match s.lru with
      | [] => (0, s)
      | did :: rest =>
        match getEntry s did with
        | none => (0, s)
        | some e =>
          -- dequeue from lru, pin so invalidate cannot free under us
          let s1 := zswap_entry_get { s with lru := rest } did
          let r := zswap_writeback_entry (os 0) s1
          let fs := writebackRequeue r.2 did e.handle r.1
          let fr := zswap_writeback_entries (fun i => os (i + 1)) n fs.2
          (fr.1 + (if fs.1 then 1 else 0), fr.2)

/-- Retirement of a duplicate found by the store path's insert loop
(zswap.c lines 876-884): bump the duplicate counter, erase the duplicate from
the tree and (if linked) the LRU, drop its creation reference, and free it
together with its handle when the post-decrement refcount is zero. -/
def storeDupDrop (s : ZswapState) (did handle : Nat) : ZswapState :=
  let s1 := { s with
    duplicate_entry := s.duplicate_entry + 1
    rb := s.rb.filter (fun i => i != did)
    lru := s.lru.filter (fun i => i != did) }
  let p := zswap_entry_put s1 did
  if p.1 = 0 then zswap_free_entry p.2 did handle else p.2

/-- The `do { zswap_rb_insert ... } while (ret == -EEXIST)` loop of the store
path (zswap.c lines 873-886): as long as a node with the same offset is in
the tree, retire the duplicate and retry the insert.  Each round removes the
found node from the tree, so `fuel = rb.length + 1` (the call site below)
always reaches the insert. -/
def storeMapLoop : Nat → ZswapState → Nat → Nat → ZswapState
  | 0, s, _, _ => s
  | fuel + 1, s, eid, off =>
    match zswap_rb_search s off with
    | some (did, e) => storeMapLoop fuel (storeDupDrop s did e.handle) eid off
    | none => { s with rb := eid :: s.rb }

/-- Oracles for one invocation of the store path: did `kmem_cache_alloc`
succeed, did the first / the retried `zs_malloc` succeed, and the swap-cache
outcomes of the writeback fallback. -/
structure StoreOracles where
  entryAllocOk : Bool
  zsAllocOk1 : Bool
  zsAllocOk2 : Bool
  wb : Nat → WbOutcome

/-- The tree-lock section of the store path (zswap.c lines 866-891): populate
the entry, run the insert loop, join the LRU tail and bump the stored-page
counter. -/
def storeLink (s : ZswapState) (eid off handle : Nat) (comp : Bytes) : ZswapState :=
  let s := setEntry s eid
    (fun e => { e with offset := off, handle := handle, length := comp.length })
  let s := storeMapLoop (s.rb.length + 1) s eid off
  let s := { s with lru := s.lru ++ [eid] }
  { s with stored_pages := s.stored_pages + 1 }

/-- The shared tail of the store path once a handle has been obtained
(zswap.c lines 858-903): map the handle and copy the payload in, release the
scratch frame or the per-CPU buffer, then run the lock section above. -/
def storeInstall (s : ZswapState) (eid off : Nat) (comp : Bytes) (wbAttempted : Bool) :
    Int × ZswapState :=
  let handle := s.nextHandle
  let s := { s with
    nextHandle := s.nextHandle + 1
    pool := fun h => if h = handle then some comp else s.pool h }
  let s := if wbAttempted then { s with tmppages := s.tmppages + 1 }
           else { s with cpuBufHeld := false }
  (0, storeLink s eid off handle comp)

/-- The `freepage`/`reject` epilogue of the store path (zswap.c lines
905-912): return the scratch frame to the ring or release the per-CPU buffer,
free the fresh entry record, and surface the error. -/
def storeReject (s : ZswapState) (eid : Nat) (wbAttempted : Bool) (ret : Int) :
    Int × ZswapState :=
  let s := if wbAttempted then { s with tmppages := s.tmppages + 1 }
           else { s with cpuBufHeld := false }
  (ret, { s with entries := fun i => if i = eid then none else s.entries i })

/-- `zswap_frontswap_store` (zswap.c lines 775-913) on a registered area
(the `!tree` check lives in the global wrapper `zswap_frontswap_store_g`).
Allocate an entry record (refcount 1), compress the page through the per-CPU
buffer, apply the compression-ratio admission check, obtain a zsmalloc handle
— falling back to staging the payload in a scratch frame and evicting up to 16
LRU entries when the first attempt fails — then install the entry. -/
def zswap_frontswap_store (env : ZswapEnv) (oc : StoreOracles) (s : ZswapState)
    (off : Nat) (page : Bytes) : Int × ZswapState :=
  -- allocate entry (zswap_entry_cache_alloc: refcount = 1, detached lru)
  if oc.entryAllocOk then
    let eid := s.nextEntry
    let s := { s with
      nextEntry := s.nextEntry + 1
      entries := fun i => if i = eid then some ⟨0, 0, 0, 1⟩ else s.entries i }
    -- compress: dst = get_cpu_var(zswap_dstmem)
    let s := { s with cpuBufHeld := true }
    match env.compress page with
    | none => storeReject s eid false (-EINVAL)
    | some comp =>
      let dlen := comp.length
      if dlen * 100 / PAGE_SIZE > env.max_compression_ratio then
        storeReject { s with reject_compress_poor := s.reject_compress_poor + 1 }
          eid false (-E2BIG)
      else
        -- store: handle = zs_malloc(tree->pool, dlen)
        if oc.zsAllocOk1 then
          storeInstall s eid off comp false
        else
          let s := { s with writeback_attempted := s.writeback_attempted + 1 }
          -- tmppage = zswap_tmppage_alloc()
          if s.tmppages = 0 then
            storeReject { s with reject_tmppage_fail := s.reject_tmppage_fail + 1 }
              eid false (-ENOMEM)
          else
            let s := { s with tmppages := s.tmppages - 1 }
            -- memcpy into the scratch frame, put_cpu_var(zswap_dstmem)
            let s := { s with cpuBufHeld := false }
            let s := (zswap_writeback_entries oc.wb 16 s).2
            if oc.zsAllocOk2 then
              storeInstall { s with saved_by_writeback := s.saved_by_writeback + 1 }
                eid off comp true
            else
              storeReject { s with reject_zsmalloc_fail := s.reject_zsmalloc_fail + 1 }
                eid true (-ENOMEM)
  else
    (-ENOMEM, { s with reject_kmemcache_fail := s.reject_kmemcache_fail + 1 })

/-- `zswap_frontswap_load` (zswap.c lines 919-971) on a registered area.
Besides the return code, the middle component is the content left in the
destination page: `some bytes` when the codec produced output, `none` when it
failed and left the page unspecified.  Note the code discards the return value
of `zswap_comp_op(ZSWAP_COMPOP_DECOMPRESS, ...)` and never checks `dlen`. -/
def zswap_frontswap_load (env : ZswapEnv) (s : ZswapState) (off : Nat) :
    Int × Option Bytes × ZswapState :=
  match zswap_rb_search s off with
  | none => (-1, none, s)
  | some (did, e) =>
    let s := zswap_entry_get s did
    -- remove from lru
    let s := { s with lru := s.lru.filter (fun i => i != did) }
    -- decompress; the result of zswap_comp_op is not inspected
    let src := (s.pool e.handle).getD []
    let out := env.decompress (src.take e.length)
    let p := zswap_entry_put s did
    if p.1 ≠ 0 then
      (0, out, { p.2 with lru := p.2.lru ++ [did] })
    else
      (0, out, zswap_free_entry p.2 did e.handle)

/-- `zswap_frontswap_invalidate_page` (zswap.c lines 974-1006) on a registered
area: erase the entry from tree and LRU, drop the creation reference, free it
when the post-decrement refcount is zero. -/
def zswap_frontswap_invalidate_page (s : ZswapState) (off : Nat) : ZswapState :=
  match zswap_rb_search s off with
  | none => s
  | some (did, e) =>
    let s := { s with
      rb := s.rb.filter (fun i => i != did)
      lru := s.lru.filter (fun i => i != did) }
    let p := zswap_entry_put s did
    if p.1 ≠ 0 then p.2
    else zswap_free_entry p.2 did e.handle

/-- The tree walk of `zswap_frontswap_invalidate_area` (zswap.c lines
1029-1035): free every entry's handle and record and decrement the
stored-page counter. -/
def areaPurgeLoop : List Nat → ZswapState → ZswapState
  | [], s => s
  | id :: rest, s =>
    match getEntry s id with
    | some e =>
      areaPurgeLoop rest
        { s with
          pool := fun h => if h = e.handle then none else s.pool h
          entries := fun i => if i = id then none else s.entries i
          stored_pages := s.stored_pages - 1 }
    | none => areaPurgeLoop rest s

/-- `zswap_frontswap_invalidate_area` on a registered area: purge every entry,
then reset the tree root and the LRU (zswap.c lines 1019-1038). -/
def zswap_frontswap_invalidate_area (s : ZswapState) : ZswapState :=
  let s := areaPurgeLoop s.rb s
  { s with rb := [], lru := [] }

/-- The global frontswap state: `zswap_trees[MAX_SWAPFILES]`, sparse (an area
is `none` until `zswap_frontswap_init` installs it). -/
structure ZswapGlobal where
  trees : List (Option ZswapState)

/-- `zswap_trees[type]`. -/
def zswap_tree_at (g : ZswapGlobal) (ty : Nat) : Option ZswapState :=
  g.trees.getD ty none

/-- Replace the area for `ty`. -/
def setTree (g : ZswapGlobal) (ty : Nat) (t : ZswapState) : ZswapGlobal :=
  { g with trees := g.trees.set ty (some t) }

/-- Top-level `zswap_frontswap_store`: the hook begins with
`tree = zswap_trees[type]; if (!tree) { ret = -ENODEV; goto reject; }`
(zswap.c lines 778, 791-794). -/
def zswap_frontswap_store_g (env : ZswapEnv) (oc : StoreOracles) (g : ZswapGlobal)
    (ty off : Nat) (page : Bytes) : Option (Int × ZswapGlobal) :=
  match zswap_tree_at g ty with
  | none => some (-ENODEV, g)
  | some t =>
    let r := zswap_frontswap_store env oc t off page
    some (r.1, setTree g ty r.2)

/-- Top-level `zswap_frontswap_load`: the hook reads `zswap_trees[type]` and
immediately executes `spin_lock(&tree->lock)` (zswap.c lines 922, 929) with no
check that the area exists; `none` models the undefined null dereference on an
unregistered type. -/
def zswap_frontswap_load_g (env : ZswapEnv) (g : ZswapGlobal) (ty off : Nat) :
    Option (Int × Option Bytes × ZswapGlobal) :=
  match zswap_tree_at g ty with
  | none => none
  | some t =>
    let r := zswap_frontswap_load env t off
    some (r.1, r.2.1, setTree g ty r.2.2)

/-- Top-level `zswap_frontswap_invalidate_page`: like the load hook it takes
`tree->lock` with no null check (zswap.c lines 976, 981); `none` models the
undefined null dereference on an unregistered type. -/
def zswap_frontswap_invalidate_page_g (g : ZswapGlobal) (ty off : Nat) :
    Option ZswapGlobal :=
  match zswap_tree_at g ty with
  | none => none
  | some t => some (setTree g ty (zswap_frontswap_invalidate_page t off))

/-- Top-level `zswap_frontswap_invalidate_area`: this hook does guard with
`if (!tree) return;` (zswap.c lines 1015-1016). -/
def zswap_frontswap_invalidate_area_g (g : ZswapGlobal) (ty : Nat) :
    Option ZswapGlobal :=
  match zswap_tree_at g ty with
  | none => some g
  | some t => some (setTree g ty (zswap_frontswap_invalidate_area t))

/-- `zswap_max_pool_pages` (zswap.c lines 398-401):
`zswap_max_pool_percent * totalram_pages / 100`, computed in `unsigned long`
and truncated to the `unsigned int` return type. -/
def zswap_max_pool_pages (max_pool_percent totalram_pages : Nat) : Nat :=
  max_pool_percent * totalram_pages % 2 ^ 64 / 100 % 2 ^ 32

/-- The page-frame pool state feeding zsmalloc: the `atomic_t`
`zswap_pool_pages` and the `zswap_pool_limit_hit` counter. -/
structure PagePoolState where
  zswap_pool_pages : Int
  zswap_pool_limit_hit : Nat
deriving Repr, DecidableEq

/-- `zswap_alloc_page` (zswap.c lines 417-429): refuse and count a pool-limit
hit once the pool-page count is at the ceiling, otherwise draw a frame from
the mempool (`mempoolOk` = whether `mempool_alloc` produced one) and count it.
The C comparison `atomic_read(..) >= zswap_max_pool_pages()` converts the
signed count to `unsigned int`. -/
def zswap_alloc_page (max_pool_percent totalram_pages : Nat) (mempoolOk : Bool)
    (s : PagePoolState) : Option Unit × PagePoolState :=
  if (s.zswap_pool_pages % 2 ^ 32).toNat ≥ zswap_max_pool_pages max_pool_percent totalram_pages then
    (none, { s with zswap_pool_limit_hit := s.zswap_pool_limit_hit + 1 })
  else if mempoolOk then
    (some (), { s with zswap_pool_pages := s.zswap_pool_pages + 1 })
  else
    (none, s)

/-- `zswap_free_page` (zswap.c lines 431-437): a null page is ignored,
otherwise the frame returns to the mempool and the count drops by one. -/
def zswap_free_page (page : Option Unit) (s : PagePoolState) : PagePoolState :=
  match page with
  | none => s
  | some _ => { s with zswap_pool_pages := s.zswap_pool_pages - 1 }

/-- Freshness of the allocator cursors of a state: the next entry id is not
linked anywhere and has no record, and no live record owns the next zsmalloc
handle.  This holds of every state the driver can reach (ids and handles are
never reused while live) and is what makes a store's fresh entry and handle
distinct from existing ones. -/
def StoreFresh (s : ZswapState) : Prop :=
  s.nextEntry ∉ s.rb ∧ s.nextEntry ∉ s.lru ∧ s.entries s.nextEntry = none ∧
    (∀ id e, s.entries id = some e → e.handle ≠ s.nextHandle) ∧
    s.pool s.nextHandle = none


/-! ### Concrete instances used to instantiate the theorems -/

/-- The boot state of an area: empty tree and LRU, no records, full scratch
ring, all counters zero (`zswap_frontswap_init` plus module init). -/
def initState : ZswapState where
  entries := fun _ => none
  rb := []
  lru := []
  pool := fun _ => none
  nextEntry := 0
  nextHandle := 0
  tmppages := ZSWAP_TMPPAGE_POOL_PAGES
  cpuBufHeld := false
  outstandingWritebacks := 0
  stored_pages := 0
  duplicate_entry := 0
  reject_compress_poor := 0
  reject_kmemcache_fail := 0
  reject_tmppage_fail := 0
  reject_zsmalloc_fail := 0
  writeback_attempted := 0
  saved_by_writeback := 0
  written_back_pages := 0

/-- A concrete area holding one entry: offset 5, handle 9, compressed
payload `[1, 2, 3]`, refcount 1, on the LRU. -/
def oneEntryState : ZswapState :=
  { initState with
    entries := fun i => if i = 0 then some ⟨5, 9, 3, 1⟩ else none
    rb := [0]
    lru := [0]
    pool := fun h => if h = 9 then some [1, 2, 3] else none
    nextEntry := 1
    nextHandle := 10
    stored_pages := 1 }

/-- A concrete codec environment with the default ratio tunable. -/
def env0 : ZswapEnv := ⟨fun _ => some [0], fun _ => some (List.replicate PAGE_SIZE 65), 80⟩

/-- A codec environment whose decompressor always reports an error. -/
def loadBugEnv : ZswapEnv := ⟨fun _ => some [0], fun _ => none, 80⟩

/-- An environment whose compressor always fails, driving the store path into
its earliest reject branch. -/
def envFail : ZswapEnv := ⟨fun _ => none, fun _ => none, 80⟩

/-- Fully successful allocation oracles. -/
def oc0 : StoreOracles := ⟨true, true, true, fun _ => .new true⟩

/-- Store oracles whose first `zs_malloc` fails but whose retry after the
writeback fallback succeeds. -/
def fbStore : StoreOracles := ⟨true, false, true, fun _ => WbOutcome.new true⟩

/-- 66 plain stores at offsets 0..65 followed by 5 stores that each take the
writeback fallback (evicting up to 16 LRU entries each). -/
def c5Trace : List (Nat × StoreOracles) :=
  ((List.range 66).map (fun i => (i, oc0))) ++
    ((List.range 5).map (fun i => (100 + i, fbStore)))

/-- Run a list of `(offset, oracles)` store invocations on an area. -/
def runStores (env : ZswapEnv) (ops : List (Nat × StoreOracles)) (s : ZswapState) :
    ZswapState :=
  ops.foldl (fun t op => (zswap_frontswap_store env op.2 t op.1 [65]).2) s

/-! ### Basic facts about the state operations -/

theorem getEntry_setEntry_ne (s : ZswapState) (id i : Nat) (f : ZswapEntry → ZswapEntry)
    (h : i ≠ id) : getEntry (setEntry s id f) i = getEntry s i := by
  simp [getEntry, setEntry, h]

theorem getEntry_setEntry_self (s : ZswapState) (id : Nat) (f : ZswapEntry → ZswapEntry) :
    getEntry (setEntry s id f) id = (getEntry s id).map f := by
  simp [getEntry, setEntry]

theorem getEntry_free_ne (s : ZswapState) (id hd i : Nat) (h : i ≠ id) :
    getEntry (zswap_free_entry s id hd) i = getEntry s i := by
  simp [getEntry, zswap_free_entry, h]

theorem setEntry_rb (s : ZswapState) (id : Nat) (f : ZswapEntry → ZswapEntry) :
    (setEntry s id f).rb = s.rb := rfl

theorem free_rb (s : ZswapState) (id hd : Nat) : (zswap_free_entry s id hd).rb = s.rb := rfl

theorem put_eq {s : ZswapState} {id : Nat} {e : ZswapEntry} (hge : getEntry s id = some e) :
    zswap_entry_put s id =
      (e.refcount - 1, setEntry s id (fun e => { e with refcount := e.refcount - 1 })) := by
  simp [zswap_entry_put, hge]

theorem rb_search_spec {s : ZswapState} {off did : Nat} {e : ZswapEntry}
    (h : zswap_rb_search s off = some (did, e)) :
    did ∈ s.rb ∧ getEntry s did = some e ∧ e.offset = off := by
  obtain ⟨a, ha, hfa⟩ := List.exists_of_findSome?_eq_some h
  cases hge : getEntry s a with
  | none => rw [hge] at hfa; simp at hfa
  | some e' =>
    rw [hge] at hfa
    dsimp only at hfa
    by_cases heq : e'.offset = off
    · rw [if_pos heq] at hfa
      simp only [Option.some.injEq, Prod.mk.injEq] at hfa
      obtain ⟨rfl, rfl⟩ := hfa
      exact ⟨ha, hge, heq⟩
    · rw [if_neg heq] at hfa; simp at hfa

theorem two_le_filter_length {l : List Nat} {p : Nat → Bool} {a b : Nat}
    (ha : a ∈ l) (hpa : p a = true) (hb : b ∈ l) (hpb : p b = true) (hne : a ≠ b) :
    2 ≤ (l.filter p).length := by
  have ha' : a ∈ l.filter p := List.mem_filter.mpr ⟨ha, hpa⟩
  have hb' : b ∈ l.filter p := List.mem_filter.mpr ⟨hb, hpb⟩
  cases hl : l.filter p with
  | nil => rw [hl] at ha'; cases ha'
  | cons c t =>
    cases t with
    | nil =>
      rw [hl] at ha' hb'
      simp only [List.mem_singleton] at ha' hb'
      exact absurd (ha'.trans hb'.symm) hne
    | cons d t' => simp

theorem rb_search_unique {s : ZswapState} {off did : Nat} {e : ZswapEntry}
    (h : zswap_rb_search s off = some (did, e)) (hcount : atOffCount s off ≤ 1) :
    ∀ id ∈ s.rb, id ≠ did → entryOffset s id ≠ some off := by
  intro id hid hne hoff
  obtain ⟨hdid, hged, hoffd⟩ := rb_search_spec h
  have pdid : (entryOffset s did == some off) = true := by
    simp [entryOffset, hged, hoffd]
  have pid : (entryOffset s id == some off) = true := by simp [hoff]
  have h2 := two_le_filter_length (p := fun id => entryOffset s id == some off)
    hid pid hdid pdid hne
  unfold atOffCount at hcount
  omega

theorem rb_search_eq_none {s : ZswapState} {off : Nat}
    (h : ∀ id ∈ s.rb, entryOffset s id ≠ some off) :
    zswap_rb_search s off = none := by
  apply List.findSome?_eq_none_iff.mpr
  intro id hid
  cases hge : getEntry s id with
  | none => simp [hge]
  | some e =>
    have hne : e.offset ≠ off := by
      intro hh
      exact h id hid (by simp [entryOffset, hge, hh])
    simp [hge, hne]

theorem invalidate_of_search_none {s : ZswapState} {off : Nat}
    (h : zswap_rb_search s off = none) : zswap_frontswap_invalidate_page s off = s := by
  simp [zswap_frontswap_invalidate_page, h]

theorem load_of_search_none (env : ZswapEnv) {s : ZswapState} {off : Nat}
    (h : zswap_rb_search s off = none) :
    zswap_frontswap_load env s off = (-1, none, s) := by
  simp [zswap_frontswap_load, h]

/-- After a single-offset invalidate, the offset is gone from the tree
(assuming the offset keyed at most one node, as the rbtree guarantees). -/
theorem search_invalidate_none (s : ZswapState) (off : Nat)
    (hcount : atOffCount s off ≤ 1) :
    zswap_rb_search (zswap_frontswap_invalidate_page s off) off = none := by
  cases h : zswap_rb_search s off with
  | none => rw [invalidate_of_search_none h]; exact h
  | some de =>
    obtain ⟨did, e⟩ := de
    obtain ⟨hdid, hged, hoffd⟩ := rb_search_spec h
    have huniq := rb_search_unique h hcount
    have hged' : getEntry { s with
        rb := s.rb.filter (fun i => i != did)
        lru := s.lru.filter (fun i => i != did) } did = some e := hged
    rw [zswap_frontswap_invalidate_page, h]
    dsimp only
    rw [put_eq hged']
    dsimp only
    split
    · apply rb_search_eq_none
      intro id hid
      rw [setEntry_rb] at hid
      simp only [List.mem_filter, bne_iff_ne, ne_eq] at hid
      obtain ⟨hid', hne⟩ := hid
      simp only [entryOffset, getEntry_setEntry_ne _ _ _ _ hne]
      exact huniq id hid' hne
    · apply rb_search_eq_none
      intro id hid
      rw [free_rb, setEntry_rb] at hid
      simp only [List.mem_filter, bne_iff_ne, ne_eq] at hid
      obtain ⟨hid', hne⟩ := hid
      simp only [entryOffset, getEntry_free_ne _ _ _ _ hne, getEntry_setEntry_ne _ _ _ _ hne]
      exact huniq id hid' hne

/-! ### Claim theorems -/

/-- C6: on an area whose tree keys the offset at most once (the rbtree
invariant), invalidating the same offset twice leaves exactly the state of
invalidating it once — the second call finds no entry and mutates nothing —
and a subsequent load at that offset misses, returning -1 with the
destination page untouched. -/
theorem invalidate_page_idempotent (env : ZswapEnv) (s : ZswapState) (off : Nat)
    (hcount : atOffCount s off ≤ 1) :
    zswap_frontswap_invalidate_page (zswap_frontswap_invalidate_page s off) off =
      zswap_frontswap_invalidate_page s off ∧
    (zswap_frontswap_load env (zswap_frontswap_invalidate_page s off) off).1 = -1 ∧
    (zswap_frontswap_load env (zswap_frontswap_invalidate_page s off) off).2.1 = none := by
  have hnone := search_invalidate_none s off hcount
  refine ⟨invalidate_of_search_none hnone, ?_, ?_⟩ <;> rw [load_of_search_none env hnone]

/-- Witness for C6 at the concrete one-entry area. -/
theorem invalidate_page_idempotent_witness :
    atOffCount oneEntryState 5 ≤ 1 ∧
    zswap_frontswap_invalidate_page (zswap_frontswap_invalidate_page oneEntryState 5) 5 =
      zswap_frontswap_invalidate_page oneEntryState 5 ∧
    (zswap_frontswap_load env0 (zswap_frontswap_invalidate_page oneEntryState 5) 5).1 = -1 :=
  ⟨by decide, (invalidate_page_idempotent env0 oneEntryState 5 (by decide)).1,
    (invalidate_page_idempotent env0 oneEntryState 5 (by decide)).2.1⟩

/-- C10: on a type with no registered area, the store hook takes its
`if (!tree)` guard and returns -ENODEV without touching anything, and the
area-purge hook takes its `if (!tree)` guard and returns silently; the load
and single-offset invalidate hooks have no such branch and dereference the
null area (modelled as `none`, the undefined outcome). -/
theorem missing_area_guards (env : ZswapEnv) (oc : StoreOracles) (g : ZswapGlobal)
    (ty off : Nat) (page : Bytes) (h : zswap_tree_at g ty = none) :
    zswap_frontswap_store_g env oc g ty off page = some (-ENODEV, g) ∧
    zswap_frontswap_load_g env g ty off = none ∧
    zswap_frontswap_invalidate_page_g g ty off = none ∧
    zswap_frontswap_invalidate_area_g g ty = some g := by
  simp [zswap_frontswap_store_g, zswap_frontswap_load_g,
    zswap_frontswap_invalidate_page_g, zswap_frontswap_invalidate_area_g, h]

/-- Witness for C10 with no areas registered at all. -/
theorem missing_area_guards_witness :
    zswap_tree_at ⟨[]⟩ 3 = none ∧
    (zswap_frontswap_store_g env0 oc0 ⟨[]⟩ 3 7 [] = some (-ENODEV, ⟨[]⟩) ∧
      zswap_frontswap_load_g env0 ⟨[]⟩ 3 7 = none ∧
      zswap_frontswap_invalidate_page_g ⟨[]⟩ 3 7 = none ∧
      zswap_frontswap_invalidate_area_g ⟨[]⟩ 3 = some ⟨[]⟩) :=
  ⟨rfl, missing_area_guards env0 oc0 ⟨[]⟩ 3 7 [] rfl⟩

/-- C4 (code bug): the load path's own comment promises "returns 0 if the
page was successfully decompressed / return -1 on entry not found or error"
(zswap.c lines 915-918), but the return value of
`zswap_comp_op(ZSWAP_COMPOP_DECOMPRESS, ...)` is discarded and `dlen` is
never checked (lines 947-948, contrast the BUG_ON pair in
`zswap_writeback_entry`): here the entry at offset 5 is found, the codec
reports an error and leaves the destination page unspecified, and load
still returns 0. -/
theorem load_ok_despite_codec_error :
    (zswap_rb_search oneEntryState 5).isSome = true ∧
    loadBugEnv.decompress [1, 2, 3] = none ∧
    (zswap_frontswap_load loadBugEnv oneEntryState 5).1 = 0 ∧
    (zswap_frontswap_load loadBugEnv oneEntryState 5).2.1 = none := by
  refine ⟨by decide, rfl, by decide, by decide⟩

/-- C9: a page-frame allocation fails with a pool-limit hit exactly when the
frame count has reached `max_pool_percent * totalram_pages / 100`; below the
ceiling a successful mempool draw returns a frame and counts it, and freeing
a frame uncounts it.  The bounds hypotheses discharge the `unsigned`
truncations in `zswap_max_pool_pages` and in the
`atomic_read(..) >= zswap_max_pool_pages()` comparison. -/
theorem alloc_page_pool_limit (mp tr : Nat) (ok : Bool) (s : PagePoolState)
    (hmul : mp * tr < 2 ^ 64) (hdiv : mp * tr / 100 < 2 ^ 32)
    (h0 : 0 ≤ s.zswap_pool_pages) (hub : s.zswap_pool_pages < 2 ^ 32) :
    (((zswap_alloc_page mp tr ok s).1 = none ∧
        (zswap_alloc_page mp tr ok s).2.zswap_pool_limit_hit = s.zswap_pool_limit_hit + 1) ↔
      s.zswap_pool_pages ≥ (mp * tr / 100 : Nat)) ∧
    (s.zswap_pool_pages < (mp * tr / 100 : Nat) → ok = true →
      (zswap_alloc_page mp tr ok s).1 = some () ∧
      (zswap_alloc_page mp tr ok s).2.zswap_pool_pages = s.zswap_pool_pages + 1) ∧
    (∀ t : PagePoolState, (zswap_free_page (some ()) t).zswap_pool_pages =
      t.zswap_pool_pages - 1) := by
  have hmax : zswap_max_pool_pages mp tr = mp * tr / 100 := by
    unfold zswap_max_pool_pages
    rw [Nat.mod_eq_of_lt hmul, Nat.mod_eq_of_lt hdiv]
  have hmod : s.zswap_pool_pages % 2 ^ 32 = s.zswap_pool_pages :=
    Int.emod_eq_of_lt h0 hub
  have hcond : ((s.zswap_pool_pages % 2 ^ 32).toNat ≥ zswap_max_pool_pages mp tr) ↔
      s.zswap_pool_pages ≥ (mp * tr / 100 : Nat) := by
    rw [hmod, hmax]
    omega
  unfold zswap_alloc_page
  by_cases hge : s.zswap_pool_pages ≥ (mp * tr / 100 : Nat)
  · rw [if_pos (hcond.mpr hge)]
    exact ⟨⟨fun _ => hge, fun _ => ⟨rfl, rfl⟩⟩,
      fun hlt => absurd hge (not_le.mpr hlt), fun t => rfl⟩
  · rw [if_neg (fun hc => hge (hcond.mp hc))]
    refine ⟨⟨?_, fun hc => absurd hc hge⟩, ?_, fun t => rfl⟩
    · cases ok <;> simp_all
    · intro _ hok
      subst hok
      exact ⟨rfl, rfl⟩

/-- Witness for C9: one slot below a ceiling of 5 frames, a draw succeeds. -/
theorem alloc_page_pool_limit_witness :
    (50 * 10 : Nat) < 2 ^ 64 ∧ (50 * 10 / 100 : Nat) < 2 ^ 32 ∧
    (0 : Int) ≤ 4 ∧ (4 : Int) < 2 ^ 32 ∧
    ((((zswap_alloc_page 50 10 true ⟨4, 0⟩).1 = none ∧
        (zswap_alloc_page 50 10 true ⟨4, 0⟩).2.zswap_pool_limit_hit = 0 + 1) ↔
      (4 : Int) ≥ (50 * 10 / 100 : Nat)) ∧
      ((4 : Int) < (50 * 10 / 100 : Nat) → true = true →
        (zswap_alloc_page 50 10 true ⟨4, 0⟩).1 = some () ∧
        (zswap_alloc_page 50 10 true ⟨4, 0⟩).2.zswap_pool_pages = 4 + 1) ∧
      (∀ t : PagePoolState, (zswap_free_page (some ()) t).zswap_pool_pages =
        t.zswap_pool_pages - 1)) :=
  ⟨by decide, by decide, by decide, by decide,
    alloc_page_pool_limit 50 10 true ⟨4, 0⟩ (by decide) (by decide) (by decide) (by decide)⟩

/-! ### Writeback engine lemmas -/

theorem wb_entry_fst (o : WbOutcome) (s s' : ZswapState) :
    (zswap_writeback_entry o s).1 = (zswap_writeback_entry o s').1 := by
  cases o with
  | nomem => rfl
  | exist => rfl
  | new b => cases b <;> rfl

theorem wb_entry_snd (o : WbOutcome) (s : ZswapState) :
    (zswap_writeback_entry o s).2 = s ∨
    (zswap_writeback_entry o s).2 =
      { s with outstandingWritebacks := s.outstandingWritebacks + 1 } := by
  cases o with
  | nomem => exact Or.inl rfl
  | exist => exact Or.inl rfl
  | new b =>
    cases b with
    | false => exact Or.inl rfl
    | true => exact Or.inr rfl

set_option maxHeartbeats 1000000 in
/-- Closed form of `writebackRequeue` on a live entry: the refcount dispatch
of zswap.c lines 677-706 as a function of the post-decrement value `rc`. -/
theorem requeue_proj {s : ZswapState} {did : Nat} {e : ZswapEntry} (handle : Nat)
    (ret rc : Int) (hge : getEntry s did = some e)
    (hrc : rc = e.refcount - 1 - (if ret = 0 then 1 else 0)) :
    ((writebackRequeue s did handle ret).1 = true ↔ rc ≤ 0) ∧
    (writebackRequeue s did handle ret).2.lru =
      (if rc = 1 then did :: s.lru else s.lru) ∧
    (writebackRequeue s did handle ret).2.rb =
      (if rc = 0 then s.rb.filter (fun i => i != did) else s.rb) ∧
    (writebackRequeue s did handle ret).2.entries =
      (fun i => if i = did then (if rc ≤ 0 then none else some { e with refcount := rc })
                else s.entries i) ∧
    (writebackRequeue s did handle ret).2.pool =
      (if rc ≤ 0 then (fun h => if h = handle then none else s.pool h) else s.pool) ∧
    (writebackRequeue s did handle ret).2.stored_pages =
      (if rc ≤ 0 then s.stored_pages - 1 else s.stored_pages) ∧
    (writebackRequeue s did handle ret).2.nextEntry = s.nextEntry ∧
    (writebackRequeue s did handle ret).2.nextHandle = s.nextHandle ∧
    (writebackRequeue s did handle ret).2.tmppages = s.tmppages ∧
    (writebackRequeue s did handle ret).2.cpuBufHeld = s.cpuBufHeld ∧
    (writebackRequeue s did handle ret).2.outstandingWritebacks = s.outstandingWritebacks ∧
    (writebackRequeue s did handle ret).2.reject_compress_poor = s.reject_compress_poor ∧
    (writebackRequeue s did handle ret).2.duplicate_entry = s.duplicate_entry ∧
    (writebackRequeue s did handle ret).2.saved_by_writeback = s.saved_by_writeback ∧
    (writebackRequeue s did handle ret).2.writeback_attempted = s.writeback_attempted := by
  simp only [writebackRequeue]
  rw [put_eq hge]
  dsimp only
  by_cases hret : ret = 0
  · have hge2 : getEntry (setEntry s did (fun e => { e with refcount := e.refcount - 1 })) did =
        some { e with refcount := e.refcount - 1 } := by
      rw [getEntry_setEntry_self, hge]
      rfl
    rw [if_pos hret, put_eq hge2]
    dsimp only
    have hge' : s.entries did = some e := hge
    have hrc' : e.refcount - 1 - 1 = rc := by rw [hrc, if_pos hret]
    rw [hrc']
    refine ⟨?_, ?_, ?_, ?_, ?_, ?_, ?_, ?_, ?_, ?_, ?_, ?_, ?_, ?_, ?_⟩ <;>
      split_ifs <;>
        first
        | rfl
        | omega
        | exact iff_of_true rfl (by omega)
        | exact iff_of_false (fun h => nomatch h) (by omega)
        | (funext i
           by_cases hi : i = did <;> simp [setEntry, zswap_free_entry, hi, hge', hrc'])
  · rw [if_neg hret]
    dsimp only
    have hge' : s.entries did = some e := hge
    have hrc' : e.refcount - 1 = rc := by rw [hrc, if_neg hret]; ring
    rw [hrc']
    refine ⟨?_, ?_, ?_, ?_, ?_, ?_, ?_, ?_, ?_, ?_, ?_, ?_, ?_, ?_, ?_⟩ <;>
      split_ifs <;>
        first
        | rfl
        | omega
        | exact iff_of_true rfl (by omega)
        | exact iff_of_false (fun h => nomatch h) (by omega)
        | (funext i
           by_cases hi : i = did <;> simp [setEntry, zswap_free_entry, hi, hge', hrc'])

theorem getEntry_get_self {s : ZswapState} {id : Nat} {e : ZswapEntry}
    (hge : getEntry s id = some e) :
    getEntry (zswap_entry_get s id) id = some { e with refcount := e.refcount + 1 } := by
  rw [zswap_entry_get, getEntry_setEntry_self, hge]
  rfl

theorem wb_entry_frame (o : WbOutcome) (s : ZswapState) :
    (zswap_writeback_entry o s).2.entries = s.entries ∧
    (zswap_writeback_entry o s).2.rb = s.rb ∧
    (zswap_writeback_entry o s).2.lru = s.lru ∧
    (zswap_writeback_entry o s).2.pool = s.pool ∧
    (zswap_writeback_entry o s).2.stored_pages = s.stored_pages ∧
    (zswap_writeback_entry o s).2.nextEntry = s.nextEntry ∧
    (zswap_writeback_entry o s).2.nextHandle = s.nextHandle ∧
    (zswap_writeback_entry o s).2.tmppages = s.tmppages ∧
    (zswap_writeback_entry o s).2.cpuBufHeld = s.cpuBufHeld ∧
    (zswap_writeback_entry o s).2.reject_compress_poor = s.reject_compress_poor ∧
    (zswap_writeback_entry o s).2.duplicate_entry = s.duplicate_entry ∧
    (zswap_writeback_entry o s).2.saved_by_writeback = s.saved_by_writeback ∧
    (zswap_writeback_entry o s).2.writeback_attempted = s.writeback_attempted := by
  rcases wb_entry_snd o s with h | h <;> rw [h] <;>
    exact ⟨rfl, rfl, rfl, rfl, rfl, rfl, rfl, rfl, rfl, rfl, rfl, rfl, rfl⟩

theorem wb_entry_ow_le (o : WbOutcome) (s : ZswapState) :
    (zswap_writeback_entry o s).2.outstandingWritebacks ≤ s.outstandingWritebacks + 1 := by
  rcases wb_entry_snd o s with h | h <;> rw [h] <;> omega

/-- The writeback engine frees at most as many entries as it was asked to. -/
theorem wb_freed_le (os : Nat → WbOutcome) (n : Nat) (s : ZswapState) :
    (zswap_writeback_entries os n s).1 ≤ n := by
  induction n generalizing os s with
  | zero => exact Nat.le_refl 0
  | succ n ih =>
    simp only [zswap_writeback_entries]
    split
    · exact Nat.zero_le _
    · split
      · exact Nat.zero_le _
      · split
        · exact Nat.zero_le _
        · dsimp only
          split
          · exact Nat.succ_le_succ (ih _ _)
          · simpa using Nat.le_succ_of_le (ih _ _)

/-- The writeback engine preserves the bound `outstanding ≤ cap + 1`: it
stops once the counter exceeds the cap, so each submission starts from a
counter at most `64` and lands at most at `65`. -/
theorem wb_counter_le (os : Nat → WbOutcome) (n : Nat) (s : ZswapState)
    (h : s.outstandingWritebacks ≤ ZSWAP_MAX_OUTSTANDING_FLUSHES + 1) :
    (zswap_writeback_entries os n s).2.outstandingWritebacks ≤
      ZSWAP_MAX_OUTSTANDING_FLUSHES + 1 := by
  induction n generalizing os s with
  | zero => exact h
  | succ n ih =>
    simp only [zswap_writeback_entries]
    split
    · exact h
    · rename_i hcap
      split
      · exact h
      · rename_i did rest hlru
        split
        · exact h
        · rename_i e hge
          dsimp only
          apply ih
          have hge1 : getEntry (zswap_writeback_entry (os 0)
              (zswap_entry_get { s with lru := rest } did)).2 did =
              some { e with refcount := e.refcount + 1 } := by
            rw [getEntry, (wb_entry_frame (os 0) _).1]
            exact getEntry_get_self hge
          obtain ⟨_, _, _, _, _, _, _, _, _, _, how, _, _, _, _⟩ :=
            requeue_proj e.handle
              (zswap_writeback_entry (os 0) (zswap_entry_get { s with lru := rest } did)).1
              _ hge1 rfl
          rw [how]
          have h1 := wb_entry_ow_le (os 0) (zswap_entry_get { s with lru := rest } did)
          have h2 : (zswap_entry_get { s with lru := rest } did).outstandingWritebacks =
              s.outstandingWritebacks := rfl
          simp only [ZSWAP_MAX_OUTSTANDING_FLUSHES, not_lt] at hcap h ⊢
          omega

set_option maxHeartbeats 1000000 in
/-- Frame and monotonicity facts about the writeback engine: it never touches
the allocator cursors, the scratch ring, the per-CPU buffer flag or the store
path's reject/duplicate counters, and it only ever removes tree nodes, LRU
links, entry records (up to refcount changes) and pool slots. -/
theorem wb_preserves (os : Nat → WbOutcome) (n : Nat) (s : ZswapState) :
    (zswap_writeback_entries os n s).2.nextEntry = s.nextEntry ∧
    (zswap_writeback_entries os n s).2.nextHandle = s.nextHandle ∧
    (zswap_writeback_entries os n s).2.tmppages = s.tmppages ∧
    (zswap_writeback_entries os n s).2.cpuBufHeld = s.cpuBufHeld ∧
    (zswap_writeback_entries os n s).2.reject_compress_poor = s.reject_compress_poor ∧
    (zswap_writeback_entries os n s).2.duplicate_entry = s.duplicate_entry ∧
    (zswap_writeback_entries os n s).2.saved_by_writeback = s.saved_by_writeback ∧
    (zswap_writeback_entries os n s).2.rb.Sublist s.rb ∧
    (∀ id, id ∈ (zswap_writeback_entries os n s).2.lru → id ∈ s.lru) ∧
    (∀ id, id ∉ s.lru → (zswap_writeback_entries os n s).2.entries id = s.entries id) ∧
    (∀ id e', (zswap_writeback_entries os n s).2.entries id = some e' →
      ∃ e0, s.entries id = some e0 ∧ e'.offset = e0.offset ∧ e'.handle = e0.handle ∧
        e'.length = e0.length) ∧
    (∀ h, (zswap_writeback_entries os n s).2.pool h = s.pool h ∨
      (zswap_writeback_entries os n s).2.pool h = none) := by
  induction n generalizing os s with
  | zero =>
    exact ⟨rfl, rfl, rfl, rfl, rfl, rfl, rfl, List.Sublist.refl _, fun id h => h,
      fun id _ => rfl, fun id e' hh => ⟨e', hh, rfl, rfl, rfl⟩, fun h => Or.inl rfl⟩
  | succ n ih =>
    simp only [zswap_writeback_entries]
    split
    · exact ⟨rfl, rfl, rfl, rfl, rfl, rfl, rfl, List.Sublist.refl _, fun id h => h,
        fun id _ => rfl, fun id e' hh => ⟨e', hh, rfl, rfl, rfl⟩, fun h => Or.inl rfl⟩
    · split
      · exact ⟨rfl, rfl, rfl, rfl, rfl, rfl, rfl, List.Sublist.refl _, fun id h => h,
          fun id _ => rfl, fun id e' hh => ⟨e', hh, rfl, rfl, rfl⟩, fun h => Or.inl rfl⟩
      · rename_i did rest hlru
        split
        · exact ⟨rfl, rfl, rfl, rfl, rfl, rfl, rfl, List.Sublist.refl _, fun id h => h,
            fun id _ => rfl, fun id e' hh => ⟨e', hh, rfl, rfl, rfl⟩, fun h => Or.inl rfl⟩
        · rename_i e hge
          dsimp only
          set s1 := zswap_entry_get { s with lru := rest } did with hs1
          set r := zswap_writeback_entry (os 0) s1 with hr
          set u := writebackRequeue r.2 did e.handle r.1 with hu
          have hge1 : getEntry r.2 did = some { e with refcount := e.refcount + 1 } := by
            rw [hr, getEntry, (wb_entry_frame (os 0) s1).1, hs1]
            exact getEntry_get_self hge
          obtain ⟨hq1, hqlru, hqrb, hqent, hqpool, hqsp, hqne, hqnh, hqtp, hqcb, hqow,
            hqpoor, hqdup, hqsaved, hqwba⟩ := requeue_proj e.handle r.1 _ hge1 rfl
          rw [← hu] at hqlru hqrb hqent hqpool hqne hqnh hqtp hqcb hqpoor hqdup hqsaved
          obtain ⟨hf1, hf2, hf3, hf4, hf5, hf6, hf7, hf8, hf9, hf10, hf11, hf12, hf13⟩ :=
            wb_entry_frame (os 0) s1
          rw [← hr] at hf1 hf2 hf3 hf4 hf6 hf7 hf8 hf9 hf10 hf11 hf12
          have hrbeq : r.2.rb = s.rb := by rw [hf2, hs1]; rfl
          have hlrueq : r.2.lru = rest := by rw [hf3, hs1]; rfl
          have hpooleq : r.2.pool = s.pool := by rw [hf4, hs1]; rfl
          have hentne : ∀ i, i ≠ did → r.2.entries i = s.entries i := by
            intro i hi
            rw [hf1, hs1]
            simp [zswap_entry_get, setEntry, hi]
          have hentd : r.2.entries did = some { e with refcount := e.refcount + 1 } := hge1
          obtain ⟨ih1, ih2, ih3, ih4, ih5, ih6, ih7, ih8, ih9, ih10, ih11, ih12⟩ :=
            ih (fun i => os (i + 1)) u.2
          refine ⟨?_, ?_, ?_, ?_, ?_, ?_, ?_, ?_, ?_, ?_, ?_, ?_⟩
          · rw [ih1, hqne, hf6, hs1]; rfl
          · rw [ih2, hqnh, hf7, hs1]; rfl
          · rw [ih3, hqtp, hf8, hs1]; rfl
          · rw [ih4, hqcb, hf9, hs1]; rfl
          · rw [ih5, hqpoor, hf10, hs1]; rfl
          · rw [ih6, hqdup, hf11, hs1]; rfl
          · rw [ih7, hqsaved, hf12, hs1]; rfl
          · refine ih8.trans ?_
            rw [hqrb, hrbeq]
            split_ifs <;>
              first
              | exact List.filter_sublist _
              | exact List.Sublist.refl _
          · intro id hid
            have h1 := ih9 id hid
            rw [hqlru, hlrueq] at h1
            rw [hlru]
            split_ifs at h1 <;>
              first
              | exact h1
              | exact List.mem_cons_of_mem _ h1
          · intro id hid
            have hne : id ≠ did ∧ id ∉ rest := by
              rw [hlru] at hid
              simp only [List.mem_cons, not_or] at hid
              exact hid
            have hnu : id ∉ u.2.lru := by
              rw [hqlru, hlrueq]
              split_ifs <;>
                first
                | (simp only [List.mem_cons, not_or]
                   exact hne)
                | exact hne.2
            rw [ih10 id hnu, hqent]
            dsimp only
            rw [if_neg hne.1]
            exact hentne id hne.1
          · intro id e' h'
            obtain ⟨e1, hu1, ho, hh, hl⟩ := ih11 id e' h'
            rw [hqent] at hu1
            dsimp only at hu1
            by_cases hidd : id = did
            · subst hidd
              rw [if_pos rfl] at hu1
              split_ifs at hu1 <;>
                first
                | exact Option.noConfusion hu1
                | (have he1 := (Option.some.inj hu1).symm
                   refine ⟨e, hge, ?_, ?_, ?_⟩
                   · rw [ho, he1]
                   · rw [hh, he1]
                   · rw [hl, he1])
            · rw [if_neg hidd] at hu1
              rw [hentne id hidd] at hu1
              exact ⟨e1, hu1, ho, hh, hl⟩
          · intro h
            rcases ih12 h with h1 | h1
            · rw [h1, hqpool]
              split_ifs <;> (try dsimp only) <;> (try split_ifs) <;>
                first
                | exact Or.inr rfl
                | (rw [hpooleq]; exact Or.inl rfl)
            · exact Or.inr h1

/-- C5 (amended): the writeback engine consults the in-flight counter before
each eviction attempt and stops only once it already exceeds
`ZSWAP_MAX_OUTSTANDING_FLUSHES` (64) — the comparison at zswap.c lines 651-653
is strict — and each successful non-blocking `__swap_writepage` submission
increments the counter by exactly one; consequently each submission starts
from a counter of at most 64 and the counter never exceeds 64 + 1 = 65. -/
theorem writeback_cap_plus_one :
    (∀ (os : Nat → WbOutcome) (n : Nat) (s : ZswapState),
      s.outstandingWritebacks ≤ ZSWAP_MAX_OUTSTANDING_FLUSHES + 1 →
      (zswap_writeback_entries os n s).2.outstandingWritebacks ≤
        ZSWAP_MAX_OUTSTANDING_FLUSHES + 1) ∧
    (∀ (os : Nat → WbOutcome) (n : Nat) (s : ZswapState),
      s.outstandingWritebacks > ZSWAP_MAX_OUTSTANDING_FLUSHES →
      zswap_writeback_entries os n s = (0, s)) ∧
    (∀ s : ZswapState,
      (zswap_writeback_entry (WbOutcome.new true) s).2.outstandingWritebacks =
        s.outstandingWritebacks + 1) := by
  refine ⟨wb_counter_le, ?_, fun s => rfl⟩
  intro os n s h
  cases n with
  | zero => rfl
  | succ n =>
    simp only [zswap_writeback_entries]
    rw [if_pos h]

/-- Witness for the amended C5 bound, starting from the boot state. -/
theorem writeback_cap_plus_one_witness :
    initState.outstandingWritebacks ≤ ZSWAP_MAX_OUTSTANDING_FLUSHES + 1 ∧
    (zswap_writeback_entries (fun _ => WbOutcome.new true) 1 initState).2.outstandingWritebacks ≤
      ZSWAP_MAX_OUTSTANDING_FLUSHES + 1 :=
  ⟨by decide,
    writeback_cap_plus_one.1 (fun _ => WbOutcome.new true) 1 initState (by decide)⟩

set_option maxRecDepth 1000000 in
/-- C5 counterexample: the claimed invariant `in_flight_writebacks ≤ 64` fails
on a reachable state.  From the boot state, 66 successful stores followed by 5
stores that each fail their first `zs_malloc` (each triggering
`zswap_writeback_entries(tree, 16)` with every writepage submission
succeeding and no completion arriving) drive the counter to 65: the guard
only breaks once the counter is already strictly above 64, so the 65th
submission is still admitted from counter 64. -/
theorem writeback_cap_exceeded :
    (runStores env0 c5Trace initState).outstandingWritebacks =
      ZSWAP_MAX_OUTSTANDING_FLUSHES + 1 ∧
    ¬(runStores env0 c5Trace initState).outstandingWritebacks ≤
      ZSWAP_MAX_OUTSTANDING_FLUSHES := by
  have h : (runStores env0 c5Trace initState).outstandingWritebacks = 65 := by decide
  rw [h]
  exact ⟨by decide, by decide⟩

/-- C7: one eviction attempt of the writeback engine (an iteration of
`zswap_writeback_entries`, exercised at `nr = 1`, under the in-flight cap,
with a live entry at the LRU head).  After the pin of the attempt is dropped
and, when `zswap_writeback_entry` returned 0, the creation reference as well,
the observed refcount `r` is dispatched exactly as zswap.c lines 683-706
describe: at `r = 2` nothing further happens (the entry stays off the LRU for
the concurrent load to re-add), at `r = 1` the entry is re-added at the LRU
head, at `r = 0` it is erased from the tree and freed with its handle, at
`r < 0` it is freed without erasing; and the engine reports at most `nr`
entries freed. -/
theorem writeback_refcount_dispatch (os : Nat → WbOutcome) (s : ZswapState)
    (did : Nat) (e : ZswapEntry) (rest : List Nat) (r : Int)
    (hcap : ¬s.outstandingWritebacks > ZSWAP_MAX_OUTSTANDING_FLUSHES)
    (hlru : s.lru = did :: rest) (hge : getEntry s did = some e)
    (hr : r = e.refcount - (if (zswap_writeback_entry (os 0) s).1 = 0 then 1 else 0)) :
    (r = 2 → (zswap_writeback_entries os 1 s).1 = 0 ∧
      (zswap_writeback_entries os 1 s).2.lru = rest ∧
      (zswap_writeback_entries os 1 s).2.rb = s.rb ∧
      getEntry (zswap_writeback_entries os 1 s).2 did = some { e with refcount := 2 }) ∧
    (r = 1 → (zswap_writeback_entries os 1 s).1 = 0 ∧
      (zswap_writeback_entries os 1 s).2.lru = did :: rest ∧
      (zswap_writeback_entries os 1 s).2.rb = s.rb ∧
      getEntry (zswap_writeback_entries os 1 s).2 did = some { e with refcount := 1 }) ∧
    (r = 0 → (zswap_writeback_entries os 1 s).1 = 1 ∧
      (zswap_writeback_entries os 1 s).2.lru = rest ∧
      (zswap_writeback_entries os 1 s).2.rb = s.rb.filter (fun i => i != did) ∧
      getEntry (zswap_writeback_entries os 1 s).2 did = none ∧
      (zswap_writeback_entries os 1 s).2.pool e.handle = none) ∧
    (r < 0 → (zswap_writeback_entries os 1 s).1 = 1 ∧
      (zswap_writeback_entries os 1 s).2.lru = rest ∧
      (zswap_writeback_entries os 1 s).2.rb = s.rb ∧
      getEntry (zswap_writeback_entries os 1 s).2 did = none ∧
      (zswap_writeback_entries os 1 s).2.pool e.handle = none) ∧
    (∀ (os' : Nat → WbOutcome) (n' : Nat) (s' : ZswapState),
      (zswap_writeback_entries os' n' s').1 ≤ n') := by
  have hge1 : getEntry (zswap_writeback_entry (os 0)
      (zswap_entry_get { s with lru := rest } did)).2 did =
      some { e with refcount := e.refcount + 1 } := by
    rw [getEntry, (wb_entry_frame (os 0) _).1]
    exact getEntry_get_self hge
  have hrc : r = ({ e with refcount := e.refcount + 1 } : ZswapEntry).refcount - 1 -
      (if (zswap_writeback_entry (os 0)
        (zswap_entry_get { s with lru := rest } did)).1 = 0 then 1 else 0) := by
    rw [hr, wb_entry_fst (os 0) s (zswap_entry_get { s with lru := rest } did)]
    dsimp only
    ring
  obtain ⟨hq1, hqlru, hqrb, hqent, hqpool, hqsp, hqne, hqnh, hqtp, hqcb, hqow,
    hqpoor, hqdup, hqsaved, hqwba⟩ :=
    requeue_proj e.handle
      (zswap_writeback_entry (os 0) (zswap_entry_get { s with lru := rest } did)).1 r hge1 hrc
  have hrlru : (zswap_writeback_entry (os 0)
      (zswap_entry_get { s with lru := rest } did)).2.lru = rest := by
    rw [(wb_entry_frame (os 0) _).2.2.1]
    rfl
  have hrrb : (zswap_writeback_entry (os 0)
      (zswap_entry_get { s with lru := rest } did)).2.rb = s.rb := by
    rw [(wb_entry_frame (os 0) _).2.1]
    rfl
  simp only [zswap_writeback_entries]
  rw [if_neg hcap, hlru]
  dsimp only
  rw [hge]
  dsimp only
  set fs := writebackRequeue (zswap_writeback_entry (os 0)
    (zswap_entry_get { s with lru := rest } did)).2 did e.handle
    (zswap_writeback_entry (os 0) (zswap_entry_get { s with lru := rest } did)).1 with hfs
  refine ⟨?_, ?_, ?_, ?_, fun os' n' s' => wb_freed_le os' n' s'⟩
  · intro h'
    have hb : fs.1 = false := by
      cases hb0 : fs.1
      · rfl
      · exact absurd (hq1.mp hb0) (by omega)
    refine ⟨by simp [hb], ?_, ?_, ?_⟩
    · rw [hqlru, if_neg (show ¬r = 1 by omega), hrlru]
    · rw [hqrb, if_neg (show ¬r = 0 by omega), hrrb]
    · rw [getEntry, hqent]
      dsimp only
      rw [if_pos rfl, if_neg (show ¬r ≤ 0 by omega), h']
  · intro h'
    have hb : fs.1 = false := by
      cases hb0 : fs.1
      · rfl
      · exact absurd (hq1.mp hb0) (by omega)
    refine ⟨by simp [hb], ?_, ?_, ?_⟩
    · rw [hqlru, if_pos h', hrlru]
    · rw [hqrb, if_neg (show ¬r = 0 by omega), hrrb]
    · rw [getEntry, hqent]
      dsimp only
      rw [if_pos rfl, if_neg (show ¬r ≤ 0 by omega), h']
  · intro h'
    have hb : fs.1 = true := hq1.mpr (by omega)
    refine ⟨by simp [hb], ?_, ?_, ?_, ?_⟩
    · rw [hqlru, if_neg (show ¬r = 1 by omega), hrlru]
    · rw [hqrb, if_pos h', hrrb]
    · rw [getEntry, hqent]
      dsimp only
      rw [if_pos rfl, if_pos (show r ≤ 0 by omega)]
    · rw [hqpool, if_pos (show r ≤ 0 by omega)]
      exact if_pos rfl
  · intro h'
    have hb : fs.1 = true := hq1.mpr (by omega)
    refine ⟨by simp [hb], ?_, ?_, ?_, ?_⟩
    · rw [hqlru, if_neg (show ¬r = 1 by omega), hrlru]
    · rw [hqrb, if_neg (show ¬r = 0 by omega), hrrb]
    · rw [getEntry, hqent]
      dsimp only
      rw [if_pos rfl, if_pos (show r ≤ 0 by omega)]
    · rw [hqpool, if_pos (show r ≤ 0 by omega)]
      exact if_pos rfl

/-- Witness for C7: the one-entry area, refcount 1, successful writeback:
`r = 0`, so the attempt erases and frees the entry and reports one freed. -/
theorem writeback_refcount_dispatch_witness :
    ((zswap_writeback_entries (fun _ => WbOutcome.new true) 1 oneEntryState).1 = 1 ∧
      (zswap_writeback_entries (fun _ => WbOutcome.new true) 1 oneEntryState).2.lru = [] ∧
      (zswap_writeback_entries (fun _ => WbOutcome.new true) 1 oneEntryState).2.rb =
        [0].filter (fun i => i != 0) ∧
      getEntry (zswap_writeback_entries (fun _ => WbOutcome.new true) 1 oneEntryState).2 0 =
        none ∧
      (zswap_writeback_entries (fun _ => WbOutcome.new true) 1 oneEntryState).2.pool 9 =
        none) :=
  ((writeback_refcount_dispatch (fun _ => WbOutcome.new true) oneEntryState 0
      ⟨5, 9, 3, 1⟩ [] 0 (by decide) rfl rfl (by decide)).2.2.1) rfl

/-! ### Store path lemmas -/

theorem findSome?_congr {α β : Type} {f g : α → Option β} :
    ∀ {l : List α}, (∀ a ∈ l, f a = g a) → l.findSome? f = l.findSome? g
  | [], _ => rfl
  | a :: l, h => by
    rw [List.findSome?, List.findSome?, h a (List.mem_cons_self a l)]
    cases hga : g a with
    | some b => rfl
    | none => exact findSome?_congr (fun x hx => h x (List.mem_cons_of_mem a hx))

theorem rb_search_congr {s t : ZswapState} (off : Nat) (hrb : t.rb = s.rb)
    (hent : ∀ id, id ∈ s.rb → t.entries id = s.entries id) :
    zswap_rb_search t off = zswap_rb_search s off := by
  unfold zswap_rb_search
  rw [hrb]
  exact findSome?_congr (fun id hid => by rw [getEntry, getEntry, hent id hid])

theorem atOffCount_congr {s t : ZswapState} (off : Nat) (hrb : t.rb = s.rb)
    (hent : ∀ id, id ∈ s.rb → t.entries id = s.entries id) :
    atOffCount t off = atOffCount s off := by
  unfold atOffCount
  rw [hrb]
  congr 1
  apply List.filter_congr
  intro id hid
  simp only [entryOffset, getEntry, hent id hid]

theorem rb_search_head {t : ZswapState} {eid off : Nat} {E : ZswapEntry} {rest : List Nat}
    (hrb : t.rb = eid :: rest) (hge : getEntry t eid = some E) (hoff : E.offset = off) :
    zswap_rb_search t off = some (eid, E) := by
  unfold zswap_rb_search
  rw [hrb, List.findSome?, hge]
  simp [hoff]

theorem put_snd_cases (s : ZswapState) (id : Nat) :
    (zswap_entry_put s id).2 = setEntry s id (fun e => { e with refcount := e.refcount - 1 }) ∨
    (zswap_entry_put s id).2 = s := by
  unfold zswap_entry_put
  cases h : getEntry s id with
  | some e => exact Or.inl rfl
  | none => exact Or.inr rfl

theorem put_snd_frame (s : ZswapState) (id : Nat) :
    (zswap_entry_put s id).2.rb = s.rb ∧
    (zswap_entry_put s id).2.lru = s.lru ∧
    (zswap_entry_put s id).2.pool = s.pool ∧
    (zswap_entry_put s id).2.duplicate_entry = s.duplicate_entry ∧
    (zswap_entry_put s id).2.reject_compress_poor = s.reject_compress_poor ∧
    (zswap_entry_put s id).2.nextEntry = s.nextEntry ∧
    (zswap_entry_put s id).2.nextHandle = s.nextHandle ∧
    (zswap_entry_put s id).2.tmppages = s.tmppages ∧
    (zswap_entry_put s id).2.cpuBufHeld = s.cpuBufHeld ∧
    (∀ i, i ≠ id → (zswap_entry_put s id).2.entries i = s.entries i) := by
  rcases put_snd_cases s id with h | h <;> rw [h]
  · exact ⟨rfl, rfl, rfl, rfl, rfl, rfl, rfl, rfl, rfl,
      fun i hi => by simp [setEntry, hi]⟩
  · exact ⟨rfl, rfl, rfl, rfl, rfl, rfl, rfl, rfl, rfl, fun i _ => rfl⟩

set_option maxHeartbeats 1000000 in
/-- Closed form of `storeDupDrop` on a live duplicate. -/
theorem storeDupDrop_proj {s : ZswapState} {did : Nat} {d : ZswapEntry} (handle : Nat)
    (hge : getEntry s did = some d) :
    (storeDupDrop s did handle).rb = s.rb.filter (fun i => i != did) ∧
    (storeDupDrop s did handle).lru = s.lru.filter (fun i => i != did) ∧
    (storeDupDrop s did handle).duplicate_entry = s.duplicate_entry + 1 ∧
    (storeDupDrop s did handle).entries =
      (fun i => if i = did then
          (if d.refcount - 1 = 0 then none else some { d with refcount := d.refcount - 1 })
        else s.entries i) ∧
    (storeDupDrop s did handle).pool =
      (if d.refcount - 1 = 0 then (fun h => if h = handle then none else s.pool h)
       else s.pool) := by
  have hge1 : getEntry { s with
      duplicate_entry := s.duplicate_entry + 1
      rb := s.rb.filter (fun i => i != did)
      lru := s.lru.filter (fun i => i != did) } did = some d := hge
  have hge' : s.entries did = some d := hge
  simp only [storeDupDrop]
  rw [put_eq hge1]
  dsimp only
  refine ⟨?_, ?_, ?_, ?_, ?_⟩ <;>
    split_ifs <;>
      first
      | rfl
      | omega
      | (funext i
         by_cases hi : i = did <;> simp [setEntry, zswap_free_entry, hi, hge'])

theorem storeDupDrop_frame (s : ZswapState) (did handle : Nat) :
    (storeDupDrop s did handle).reject_compress_poor = s.reject_compress_poor ∧
    (storeDupDrop s did handle).nextEntry = s.nextEntry ∧
    (storeDupDrop s did handle).nextHandle = s.nextHandle ∧
    (storeDupDrop s did handle).tmppages = s.tmppages ∧
    (storeDupDrop s did handle).cpuBufHeld = s.cpuBufHeld := by
  simp only [storeDupDrop]
  rcases put_snd_cases { s with
      duplicate_entry := s.duplicate_entry + 1
      rb := s.rb.filter (fun i => i != did)
      lru := s.lru.filter (fun i => i != did) } did with h | h <;>
    rw [h] <;> split_ifs <;> exact ⟨rfl, rfl, rfl, rfl, rfl⟩

/-- The insert loop never touches the scratch resources, the allocator
cursors or the reject counters. -/
theorem storeMapLoop_frame (fuel : Nat) :
    ∀ (s : ZswapState) (eid off : Nat),
    (storeMapLoop fuel s eid off).reject_compress_poor = s.reject_compress_poor ∧
    (storeMapLoop fuel s eid off).nextEntry = s.nextEntry ∧
    (storeMapLoop fuel s eid off).nextHandle = s.nextHandle ∧
    (storeMapLoop fuel s eid off).tmppages = s.tmppages ∧
    (storeMapLoop fuel s eid off).cpuBufHeld = s.cpuBufHeld := by
  induction fuel with
  | zero => exact fun s eid off => ⟨rfl, rfl, rfl, rfl, rfl⟩
  | succ fuel ih =>
    intro s eid off
    simp only [storeMapLoop]
    split
    · rename_i did d hsearch
      obtain ⟨i1, i2, i3, i4, i5⟩ := ih (storeDupDrop s did d.handle) eid off
      obtain ⟨g1, g2, g3, g4, g5⟩ := storeDupDrop_frame s did d.handle
      exact ⟨i1.trans g1, i2.trans g2, i3.trans g3, i4.trans g4, i5.trans g5⟩
    · exact ⟨rfl, rfl, rfl, rfl, rfl⟩

set_option maxHeartbeats 1000000 in
/-- Behavior of the insert loop at full fuel: it retires every node keyed at
`off` (at most one, by the tree invariant) and then links `eid` in. -/
theorem mapLoopInsert_spec (sC : ZswapState) (eid off : Nat) {E : ZswapEntry}
    (heid : eid ∉ sC.rb) (hE : sC.entries eid = some E) (_hEoff : E.offset = off)
    (hcount : atOffCount sC off ≤ 1) :
    (∃ rest, (storeMapLoop (sC.rb.length + 1) sC eid off).rb = eid :: rest) ∧
    (storeMapLoop (sC.rb.length + 1) sC eid off).entries eid = some E ∧
    (∀ hh, (∀ id dd, sC.entries id = some dd → id ≠ eid → dd.handle ≠ hh) →
      (storeMapLoop (sC.rb.length + 1) sC eid off).pool hh = sC.pool hh) ∧
    (∀ i, i ∈ (storeMapLoop (sC.rb.length + 1) sC eid off).lru → i ∈ sC.lru) ∧
    (zswap_rb_search sC off = none →
      storeMapLoop (sC.rb.length + 1) sC eid off = { sC with rb := eid :: sC.rb }) ∧
    (∀ did d, zswap_rb_search sC off = some (did, d) →
      (storeMapLoop (sC.rb.length + 1) sC eid off).duplicate_entry =
        sC.duplicate_entry + 1 ∧
      did ∉ (storeMapLoop (sC.rb.length + 1) sC eid off).rb ∧
      did ∉ (storeMapLoop (sC.rb.length + 1) sC eid off).lru ∧
      (storeMapLoop (sC.rb.length + 1) sC eid off).entries did =
        (if d.refcount - 1 = 0 then none
         else some { d with refcount := d.refcount - 1 }) ∧
      (d.refcount - 1 = 0 →
        (storeMapLoop (sC.rb.length + 1) sC eid off).pool d.handle = none)) := by
  cases hsearch : zswap_rb_search sC off with
  | none =>
    have hloop : storeMapLoop (sC.rb.length + 1) sC eid off = { sC with rb := eid :: sC.rb } := by
      simp only [storeMapLoop, hsearch]
    rw [hloop]
    refine ⟨⟨sC.rb, rfl⟩, hE, fun hh _ => rfl, fun i hi => hi, fun _ => rfl, ?_⟩
    intro did d hd
    exact Option.noConfusion hd
  | some dd =>
    obtain ⟨did, d⟩ := dd
    obtain ⟨hdid_mem, hged, hdoff⟩ := rb_search_spec hsearch
    have hne : did ≠ eid := fun hq => heid (hq ▸ hdid_mem)
    obtain ⟨hdrb, hdlru, hddup, hdent, hdpool⟩ := storeDupDrop_proj d.handle hged
    have hsearch2 : zswap_rb_search (storeDupDrop sC did d.handle) off = none := by
      apply rb_search_eq_none
      intro id hid
      rw [hdrb] at hid
      simp only [List.mem_filter, bne_iff_ne, ne_eq] at hid
      obtain ⟨hid', hne'⟩ := hid
      simp only [entryOffset, getEntry, hdent]
      rw [if_neg hne']
      exact rb_search_unique hsearch hcount id hid' hne'
    obtain ⟨k, hk⟩ : ∃ k, sC.rb.length = k + 1 :=
      ⟨sC.rb.length - 1, by have := List.length_pos_of_mem hdid_mem; omega⟩
    have hloop : storeMapLoop (sC.rb.length + 1) sC eid off =
        { storeDupDrop sC did d.handle with
            rb := eid :: (storeDupDrop sC did d.handle).rb } := by
      rw [hk]
      simp only [storeMapLoop, hsearch, hsearch2]
    rw [hloop]
    refine ⟨⟨(storeDupDrop sC did d.handle).rb, rfl⟩, ?_, ?_, ?_, ?_, ?_⟩
    · show (storeDupDrop sC did d.handle).entries eid = some E
      rw [hdent]
      dsimp only
      rw [if_neg (fun hq => hne hq.symm)]
      exact hE
    · intro hh hfresh
      show (storeDupDrop sC did d.handle).pool hh = sC.pool hh
      rw [hdpool]
      split_ifs
      · dsimp only
        rw [if_neg (fun hq : hh = d.handle => hfresh did d hged hne (hq ▸ rfl))]
      · rfl
    · intro i hi
      have hi' : i ∈ (storeDupDrop sC did d.handle).lru := hi
      rw [hdlru] at hi'
      exact (List.mem_filter.mp hi').1
    · intro hnone
      exact Option.noConfusion hnone
    · intro did' d' hd'
      have hpair := Option.some.inj hd'
      injection hpair with h1 h2
      subst h1
      subst h2
      refine ⟨hddup, ?_, ?_, ?_, ?_⟩
      · show did ∉ eid :: (storeDupDrop sC did d.handle).rb
        rw [hdrb]
        simp [List.mem_filter, hne]
      · show did ∉ (storeDupDrop sC did d.handle).lru
        rw [hdlru]
        simp [List.mem_filter]
      · show (storeDupDrop sC did d.handle).entries did = _
        rw [hdent]
        exact if_pos rfl
      · intro hfr
        show (storeDupDrop sC did d.handle).pool d.handle = none
        rw [hdpool, if_pos hfr]
        exact if_pos rfl

set_option maxHeartbeats 1000000 in
/-- Behavior of the lock section of the store path on a fresh entry record:
the new entry ends up keyed at `off` in the tree with the given handle and
refcount 1, its pool slot is untouched, and a prior duplicate (at most one)
is retired exactly as the duplicate branch prescribes. -/
theorem storeLink_spec (sB : ZswapState) (eid off H : Nat) (comp : Bytes)
    (heid : eid ∉ sB.rb)
    (hent : sB.entries eid = some ⟨0, 0, 0, 1⟩)
    (hhandle : ∀ id d, sB.entries id = some d → id ≠ eid → d.handle ≠ H)
    (hcount : atOffCount sB off ≤ 1)
    (hpoolH : sB.pool H = some comp) :
    zswap_rb_search (storeLink sB eid off H comp) off =
      some (eid, ⟨off, H, comp.length, 1⟩) ∧
    (storeLink sB eid off H comp).pool H = some comp ∧
    (zswap_rb_search sB off = none →
      (storeLink sB eid off H comp).duplicate_entry = sB.duplicate_entry) ∧
    (∀ did d, zswap_rb_search sB off = some (did, d) →
      (storeLink sB eid off H comp).duplicate_entry = sB.duplicate_entry + 1 ∧
      did ∉ (storeLink sB eid off H comp).rb ∧
      did ∉ (storeLink sB eid off H comp).lru ∧
      (storeLink sB eid off H comp).entries did =
        (if d.refcount - 1 = 0 then none
         else some { d with refcount := d.refcount - 1 }) ∧
      (d.refcount - 1 = 0 → (storeLink sB eid off H comp).pool d.handle = none)) := by
  have hCE : (setEntry sB eid
      (fun e => { e with offset := off, handle := H, length := comp.length })).entries eid =
      some ⟨off, H, comp.length, 1⟩ := by
    simp [setEntry, hent]
  have hCne : ∀ id, id ≠ eid → (setEntry sB eid
      (fun e => { e with offset := off, handle := H, length := comp.length })).entries id =
      sB.entries id := by
    intro id hid
    simp [setEntry, hid]
  have hCmem : ∀ id, id ∈ sB.rb → (setEntry sB eid
      (fun e => { e with offset := off, handle := H, length := comp.length })).entries id =
      sB.entries id :=
    fun id hid => hCne id (fun hq => heid (hq ▸ hid))
  have hCcount : atOffCount (setEntry sB eid
      (fun e => { e with offset := off, handle := H, length := comp.length })) off ≤ 1 := by
    rw [atOffCount_congr (t := setEntry sB eid
      (fun e => { e with offset := off, handle := H, length := comp.length })) (s := sB)
      off rfl hCmem]
    exact hcount
  have hCsearch : zswap_rb_search (setEntry sB eid
      (fun e => { e with offset := off, handle := H, length := comp.length })) off =
      zswap_rb_search sB off :=
    rb_search_congr (t := setEntry sB eid
      (fun e => { e with offset := off, handle := H, length := comp.length })) (s := sB)
      off rfl hCmem
  obtain ⟨⟨rest, hrb⟩, hEent, hpool, hlru, hnonecase, hsomecase⟩ :=
    mapLoopInsert_spec (setEntry sB eid
      (fun e => { e with offset := off, handle := H, length := comp.length })) eid off
      heid hCE rfl hCcount
  refine ⟨?_, ?_, ?_, ?_⟩
  · exact rb_search_head (t := storeLink sB eid off H comp) hrb hEent rfl
  · show (storeMapLoop _ _ eid off).pool H = some comp
    rw [hpool H (fun id dd hdd hne => hhandle id dd ((hCne id hne) ▸ hdd) hne)]
    exact hpoolH
  · intro hnone
    have hF := hnonecase (hCsearch.trans hnone)
    show (storeMapLoop _ _ eid off).duplicate_entry = sB.duplicate_entry
    rw [hF]
    rfl
  · intro did d hd
    obtain ⟨h1, h2, h3, h4, h5⟩ := hsomecase did d (hCsearch.trans hd)
    have hdmem : did ∈ sB.rb := (rb_search_spec hd).1
    have hdne : did ≠ eid := fun hq => heid (hq ▸ hdmem)
    refine ⟨h1, h2, ?_, h4, h5⟩
    show did ∉ (storeMapLoop _ _ eid off).lru ++ [eid]
    simp only [List.mem_append, List.mem_singleton, not_or]
    exact ⟨h3, hdne⟩

set_option maxHeartbeats 2000000 in
/-- `storeInstall` on a fresh entry record: returns 0 and installs the entry
at `off` with the fresh handle holding the compressed payload; a prior
duplicate is retired as the duplicate branch prescribes. -/
theorem storeInstall_spec (s2 : ZswapState) (eid off : Nat) (comp : Bytes) (wbA : Bool)
    (heid : eid ∉ s2.rb)
    (hent : s2.entries eid = some ⟨0, 0, 0, 1⟩)
    (hhandle : ∀ id d, s2.entries id = some d → id ≠ eid → d.handle ≠ s2.nextHandle)
    (hcount : atOffCount s2 off ≤ 1) :
    (storeInstall s2 eid off comp wbA).1 = 0 ∧
    zswap_rb_search (storeInstall s2 eid off comp wbA).2 off =
      some (eid, ⟨off, s2.nextHandle, comp.length, 1⟩) ∧
    (storeInstall s2 eid off comp wbA).2.pool s2.nextHandle = some comp ∧
    (zswap_rb_search s2 off = none →
      (storeInstall s2 eid off comp wbA).2.duplicate_entry = s2.duplicate_entry) ∧
    (∀ did d, zswap_rb_search s2 off = some (did, d) →
      (storeInstall s2 eid off comp wbA).2.duplicate_entry = s2.duplicate_entry + 1 ∧
      did ∉ (storeInstall s2 eid off comp wbA).2.rb ∧
      did ∉ (storeInstall s2 eid off comp wbA).2.lru ∧
      (storeInstall s2 eid off comp wbA).2.entries did =
        (if d.refcount - 1 = 0 then none
         else some { d with refcount := d.refcount - 1 }) ∧
      (d.refcount - 1 = 0 →
        (storeInstall s2 eid off comp wbA).2.pool d.handle = none)) := by
  cases wbA with
  | false =>
    have h := storeLink_spec
      { s2 with
        nextHandle := s2.nextHandle + 1
        pool := fun h => if h = s2.nextHandle then some comp else s2.pool h
        cpuBufHeld := false }
      eid off s2.nextHandle comp heid hent hhandle hcount
      (by dsimp only; exact if_pos rfl)
    exact ⟨rfl, h.1, h.2.1, h.2.2.1, h.2.2.2⟩
  | true =>
    have h := storeLink_spec
      { s2 with
        nextHandle := s2.nextHandle + 1
        pool := fun h => if h = s2.nextHandle then some comp else s2.pool h
        tmppages := s2.tmppages + 1 }
      eid off s2.nextHandle comp heid hent hhandle hcount
      (by dsimp only; exact if_pos rfl)
    exact ⟨rfl, h.1, h.2.1, h.2.2.1, h.2.2.2⟩

/-- The writeback engine never increases the number of tree nodes keyed at
an offset. -/
theorem wb_atOffCount_le (os : Nat → WbOutcome) (n : Nat) (s : ZswapState) (off : Nat) :
    atOffCount (zswap_writeback_entries os n s).2 off ≤ atOffCount s off := by
  obtain ⟨-, -, -, -, -, -, -, hsub, -, -, hped, -⟩ := wb_preserves os n s
  unfold atOffCount
  rw [← List.countP_eq_length_filter, ← List.countP_eq_length_filter]
  calc List.countP (fun id => entryOffset (zswap_writeback_entries os n s).2 id == some off)
        (zswap_writeback_entries os n s).2.rb ≤
      List.countP (fun id => entryOffset s id == some off)
        (zswap_writeback_entries os n s).2.rb := by
        apply List.countP_mono_left
        intro id _ hp
        have hp' : entryOffset (zswap_writeback_entries os n s).2 id = some off :=
          by simpa using hp
        rw [entryOffset, getEntry] at hp'
        cases hent : (zswap_writeback_entries os n s).2.entries id with
        | none => rw [hent] at hp'; simp at hp'
        | some e' =>
          rw [hent] at hp'
          obtain ⟨e0, he0, hoff, -, -⟩ := hped id e' hent
          simp at hp'
          simp [entryOffset, getEntry, he0, ← hoff, hp']
    _ ≤ List.countP (fun id => entryOffset s id == some off) s.rb :=
        hsub.countP_le _

set_option maxHeartbeats 2000000 in
/-- Master specification of a successful store on a fresh-cursor,
unique-keyed area: the new entry sits in the tree at the requested offset
with the fresh handle, refcount 1 and the compressed length, the fresh pool
slot holds the compressed payload, and the payload passed the admission
check. -/
theorem store_success_spec (env : ZswapEnv) (oc : StoreOracles) (s : ZswapState)
    (off : Nat) (page comp : Bytes)
    (hfresh : StoreFresh s) (hcount : atOffCount s off ≤ 1)
    (hcomp : env.compress page = some comp)
    (hok : (zswap_frontswap_store env oc s off page).1 = 0) :
    zswap_rb_search (zswap_frontswap_store env oc s off page).2 off =
      some (s.nextEntry, ⟨off, s.nextHandle, comp.length, 1⟩) ∧
    (zswap_frontswap_store env oc s off page).2.pool s.nextHandle = some comp ∧
    comp.length * 100 / PAGE_SIZE ≤ env.max_compression_ratio := by
  obtain ⟨hrb, hlru, hentf, hhandf, hpoolf⟩ := hfresh
  obtain ⟨ea, z1, z2, wbo⟩ := oc
  cases ea with
  | false =>
    exfalso
    simp only [zswap_frontswap_store] at hok
    norm_num [ENOMEM] at hok
  | true =>
    simp only [zswap_frontswap_store] at hok ⊢
    rw [hcomp] at hok ⊢
    dsimp only at hok ⊢
    by_cases hratio : comp.length * 100 / PAGE_SIZE > env.max_compression_ratio
    · exfalso
      rw [if_pos hratio] at hok
      simp only [storeReject] at hok
      norm_num [E2BIG] at hok
    · rw [if_neg hratio] at hok ⊢
      cases z1 with
      | true =>
        have hinst := storeInstall_spec
          { s with
            nextEntry := s.nextEntry + 1
            entries := fun i => if i = s.nextEntry then some ⟨0, 0, 0, 1⟩ else s.entries i
            cpuBufHeld := true }
          s.nextEntry off comp false hrb (by dsimp only; exact if_pos rfl)
          (fun id d hd hne => hhandf id d (by
            have hd' := hd
            dsimp only at hd'
            rwa [if_neg hne] at hd'))
          (by
            rw [atOffCount_congr (t := { s with
              nextEntry := s.nextEntry + 1
              entries := fun i => if i = s.nextEntry then some ⟨0, 0, 0, 1⟩ else s.entries i
              cpuBufHeld := true }) (s := s) off rfl
              (fun id hid => by
                dsimp only
                rw [if_neg (fun hq : id = s.nextEntry => hrb (hq ▸ hid))])]
            exact hcount)
        exact ⟨hinst.2.1, hinst.2.2.1, not_lt.mp hratio⟩
      | false =>
        by_cases h0 : s.tmppages = 0
        · exfalso
          rw [if_neg (show ¬false = true by simp)] at hok
          rw [if_pos h0] at hok
          simp only [storeReject] at hok
          norm_num [ENOMEM] at hok
        · rw [if_neg (show ¬false = true by simp)] at hok ⊢
          rw [if_neg h0] at hok ⊢
          obtain ⟨w1, w2, w3, w4, w5, w6, w7, wsub, wlru, went, wped, wpool⟩ :=
            wb_preserves wbo 16
              { s with
                nextEntry := s.nextEntry + 1
                entries := fun i => if i = s.nextEntry then some ⟨0, 0, 0, 1⟩ else s.entries i
                cpuBufHeld := false
                writeback_attempted := s.writeback_attempted + 1
                tmppages := s.tmppages - 1 }
          cases z2 with
          | false =>
            exfalso
            rw [if_neg (show ¬false = true by simp)] at hok
            simp only [storeReject] at hok
            norm_num [ENOMEM] at hok
          | true =>
            rw [if_pos rfl] at hok ⊢
            have heid2 : s.nextEntry ∉ (zswap_writeback_entries wbo 16
                { s with
                  nextEntry := s.nextEntry + 1
                  entries := fun i => if i = s.nextEntry then some ⟨0, 0, 0, 1⟩ else s.entries i
                  cpuBufHeld := false
                  writeback_attempted := s.writeback_attempted + 1
                  tmppages := s.tmppages - 1 }).2.rb :=
              fun hmem => hrb (wsub.subset hmem)
            have hent2 : (zswap_writeback_entries wbo 16
                { s with
                  nextEntry := s.nextEntry + 1
                  entries := fun i => if i = s.nextEntry then some ⟨0, 0, 0, 1⟩ else s.entries i
                  cpuBufHeld := false
                  writeback_attempted := s.writeback_attempted + 1
                  tmppages := s.tmppages - 1 }).2.entries s.nextEntry =
                some ⟨0, 0, 0, 1⟩ := by
              rw [went s.nextEntry hlru]
              dsimp only
              exact if_pos rfl
            have hinst := storeInstall_spec
              { (zswap_writeback_entries wbo 16
                  { s with
                    nextEntry := s.nextEntry + 1
                    entries := fun i => if i = s.nextEntry then some ⟨0, 0, 0, 1⟩ else s.entries i
                    cpuBufHeld := false
                    writeback_attempted := s.writeback_attempted + 1
                    tmppages := s.tmppages - 1 }).2 with
                saved_by_writeback := (zswap_writeback_entries wbo 16
                  { s with
                    nextEntry := s.nextEntry + 1
                    entries := fun i => if i = s.nextEntry then some ⟨0, 0, 0, 1⟩ else s.entries i
                    cpuBufHeld := false
                    writeback_attempted := s.writeback_attempted + 1
                    tmppages := s.tmppages - 1 }).2.saved_by_writeback + 1 }
              s.nextEntry off comp true heid2 hent2
              (fun id d hd hne => by
                obtain ⟨d0, hd0, -, hh, -⟩ := wped id d hd
                have hd0' := hd0
                dsimp only at hd0'
                rw [if_neg hne] at hd0'
                have hw2 : (zswap_writeback_entries wbo 16
                    { s with
                      nextEntry := s.nextEntry + 1
                      entries := fun i => if i = s.nextEntry then some ⟨0, 0, 0, 1⟩ else s.entries i
                      cpuBufHeld := false
                      writeback_attempted := s.writeback_attempted + 1
                      tmppages := s.tmppages - 1 }).2.nextHandle = s.nextHandle := w2
                rw [hw2, hh]
                exact hhandf id d0 hd0')
              (by
                refine le_trans ?_ hcount
                refine le_trans (wb_atOffCount_le wbo 16 _ off) ?_
                rw [atOffCount_congr (t := { s with
                  nextEntry := s.nextEntry + 1
                  entries := fun i => if i = s.nextEntry then some ⟨0, 0, 0, 1⟩ else s.entries i
                  cpuBufHeld := false
                  writeback_attempted := s.writeback_attempted + 1
                  tmppages := s.tmppages - 1 }) (s := s) off rfl
                  (fun id hid => by
                    dsimp only
                    rw [if_neg (fun hq : id = s.nextEntry => hrb (hq ▸ hid))])])
            have hnh : ({ (zswap_writeback_entries wbo 16
                { s with
                  nextEntry := s.nextEntry + 1
                  entries := fun i => if i = s.nextEntry then some ⟨0, 0, 0, 1⟩ else s.entries i
                  cpuBufHeld := false
                  writeback_attempted := s.writeback_attempted + 1
                  tmppages := s.tmppages - 1 }).2 with
                saved_by_writeback := (zswap_writeback_entries wbo 16
                  { s with
                    nextEntry := s.nextEntry + 1
                    entries := fun i => if i = s.nextEntry then some ⟨0, 0, 0, 1⟩ else s.entries i
                    cpuBufHeld := false
                    writeback_attempted := s.writeback_attempted + 1
                    tmppages := s.tmppages - 1 }).2.saved_by_writeback + 1 } :
                ZswapState).nextHandle = s.nextHandle := w2
            rw [hnh] at hinst
            exact ⟨hinst.2.1, hinst.2.2.1, not_lt.mp hratio⟩

/-- Loading an offset that holds a freshly installed entry (refcount 1, pool
slot holding the payload) succeeds and fills the page with the decompressed
payload. -/
theorem load_after_install (env : ZswapEnv) (s' : ZswapState) (off eid H : Nat)
    (comp page : Bytes)
    (hs : zswap_rb_search s' off = some (eid, ⟨off, H, comp.length, 1⟩))
    (hp : s'.pool H = some comp)
    (hdec : env.decompress comp = some page) :
    (zswap_frontswap_load env s' off).1 = 0 ∧
    (zswap_frontswap_load env s' off).2.1 = some page := by
  have hg := getEntry_get_self (rb_search_spec hs).2.1
  simp only [zswap_frontswap_load, hs]
  rw [put_eq (show getEntry { zswap_entry_get s' eid with
      lru := (zswap_entry_get s' eid).lru.filter (fun i => i != eid) } eid =
    some { offset := off, handle := H, length := comp.length, refcount := 1 + 1 } from hg)]
  dsimp only
  have hout : env.decompress
      ((((zswap_entry_get s' eid).pool H).getD []).take comp.length) = some page := by
    rw [show (zswap_entry_get s' eid).pool = s'.pool from rfl, hp]
    simpa [List.take_length] using hdec
  refine ⟨?_, ?_⟩ <;> split_ifs <;> first | rfl | exact hout

theorem initState_fresh : StoreFresh initState := by
  refine ⟨by simp [initState], by simp [initState], rfl, ?_, rfl⟩
  intro id e h
  exact Option.noConfusion h

/-- C1: round trip.  On an area with fresh allocator cursors and a uniquely
keyed tree, if a store of `page` at `off` succeeds (with the codec having
produced `comp`) and no other operation intervenes, then — assuming the
decompressor inverts the compressor on this payload — a load at `off`
succeeds and fills the destination with the original page bytes. -/
theorem store_then_load_roundtrip (env : ZswapEnv) (oc : StoreOracles) (s : ZswapState)
    (off : Nat) (page comp : Bytes)
    (hfresh : StoreFresh s) (hcount : atOffCount s off ≤ 1)
    (hcomp : env.compress page = some comp)
    (hdec : env.decompress comp = some page)
    (hok : (zswap_frontswap_store env oc s off page).1 = 0) :
    (zswap_frontswap_load env (zswap_frontswap_store env oc s off page).2 off).1 = 0 ∧
    (zswap_frontswap_load env (zswap_frontswap_store env oc s off page).2 off).2.1 =
      some page := by
  obtain ⟨hs, hp, -⟩ := store_success_spec env oc s off page comp hfresh hcount hcomp hok
  exact load_after_install env _ off s.nextEntry s.nextHandle comp page hs hp hdec

set_option maxRecDepth 100000 in
/-- Witness for C1: store the all-0x41 page at offset 10 of the boot state
with a codec pair that inverts on it, then load it back. -/
theorem store_then_load_roundtrip_witness :
    StoreFresh initState ∧ atOffCount initState 10 ≤ 1 ∧
    env0.compress (List.replicate PAGE_SIZE 65) = some [0] ∧
    env0.decompress [0] = some (List.replicate PAGE_SIZE 65) ∧
    (zswap_frontswap_store env0 oc0 initState 10 (List.replicate PAGE_SIZE 65)).1 = 0 ∧
    ((zswap_frontswap_load env0
        (zswap_frontswap_store env0 oc0 initState 10 (List.replicate PAGE_SIZE 65)).2 10).1 = 0 ∧
      (zswap_frontswap_load env0
        (zswap_frontswap_store env0 oc0 initState 10 (List.replicate PAGE_SIZE 65)).2 10).2.1 =
        some (List.replicate PAGE_SIZE 65)) :=
  ⟨initState_fresh, by decide, rfl, rfl, by decide,
    store_then_load_roundtrip env0 oc0 initState 10 (List.replicate PAGE_SIZE 65) [0]
      initState_fresh (by decide) rfl rfl (by decide)⟩

/-- Return codes of the store path when compression succeeded and the ratio
check passed: admission (0) or -ENOMEM; never -E2BIG. -/
theorem store_ret_values (env : ZswapEnv) (oc : StoreOracles) (s : ZswapState)
    (off : Nat) (page comp : Bytes)
    (hcomp : env.compress page = some comp)
    (hratio : ¬comp.length * 100 / PAGE_SIZE > env.max_compression_ratio) :
    (zswap_frontswap_store env oc s off page).1 = 0 ∨
    (zswap_frontswap_store env oc s off page).1 = -ENOMEM := by
  obtain ⟨ea, z1, z2, wbo⟩ := oc
  cases ea with
  | false => right; simp [zswap_frontswap_store]
  | true =>
    simp only [zswap_frontswap_store]
    rw [hcomp]
    dsimp only
    rw [if_neg hratio]
    cases z1 with
    | true =>
      rw [if_pos rfl]
      left
      rfl
    | false =>
      rw [if_neg (show ¬false = true by simp)]
      by_cases h0 : s.tmppages = 0
      · rw [if_pos h0]
        right
        simp [storeReject]
      · rw [if_neg h0]
        cases z2 with
        | false =>
          rw [if_neg (show ¬false = true by simp)]
          right
          simp [storeReject]
        | true =>
          rw [if_pos rfl]
          left
          rfl

/-- C2: admission check.  With the entry record obtained and compression
succeeded with payload `comp`, the store returns -E2BIG and bumps the
compress-poor counter exactly when `comp.length * 100 / PAGE_SIZE` exceeds
`max_compression_ratio`; consequently a successful store installs at the
requested offset an entry whose length satisfies the admission bound. -/
theorem store_admission_ratio (env : ZswapEnv) (oc : StoreOracles) (s : ZswapState)
    (off : Nat) (page comp : Bytes)
    (hea : oc.entryAllocOk = true)
    (hcomp : env.compress page = some comp)
    (hfresh : StoreFresh s) (hcount : atOffCount s off ≤ 1) :
    (((zswap_frontswap_store env oc s off page).1 = -E2BIG ∧
        (zswap_frontswap_store env oc s off page).2.reject_compress_poor =
          s.reject_compress_poor + 1) ↔
      comp.length * 100 / PAGE_SIZE > env.max_compression_ratio) ∧
    ((zswap_frontswap_store env oc s off page).1 = 0 →
      ∃ E : ZswapEntry,
        zswap_rb_search (zswap_frontswap_store env oc s off page).2 off =
          some (s.nextEntry, E) ∧
        E.length * 100 / PAGE_SIZE ≤ env.max_compression_ratio) := by
  constructor
  · constructor
    · rintro ⟨h7, -⟩
      by_contra hratio
      rcases store_ret_values env ⟨oc.entryAllocOk, oc.zsAllocOk1, oc.zsAllocOk2, oc.wb⟩
          s off page comp hcomp hratio with h | h <;>
        rw [h7] at h <;> norm_num [E2BIG, ENOMEM] at h
    · intro hratio
      obtain ⟨ea, z1, z2, wbo⟩ := oc
      cases ea with
      | false => exact absurd hea (by simp)
      | true =>
        simp only [zswap_frontswap_store]
        rw [hcomp]
        dsimp only
        rw [if_pos hratio]
        exact ⟨by simp [storeReject], by simp [storeReject]⟩
  · intro hok
    obtain ⟨hs, -, hr⟩ := store_success_spec env oc s off page comp hfresh hcount hcomp hok
    exact ⟨⟨off, s.nextHandle, comp.length, 1⟩, hs, hr⟩

/-- Witness for C2 at the boot state: the 1-byte payload passes the check and
a reject probe with an incompressible oracle fails the check. -/
theorem store_admission_ratio_witness :
    oc0.entryAllocOk = true ∧ env0.compress [65] = some [0] ∧
    StoreFresh initState ∧ atOffCount initState 3 ≤ 1 ∧
    ((((zswap_frontswap_store env0 oc0 initState 3 [65]).1 = -E2BIG ∧
        (zswap_frontswap_store env0 oc0 initState 3 [65]).2.reject_compress_poor = 0 + 1) ↔
      (1 : Nat) * 100 / PAGE_SIZE > 80) ∧
      ((zswap_frontswap_store env0 oc0 initState 3 [65]).1 = 0 →
        ∃ E : ZswapEntry,
          zswap_rb_search (zswap_frontswap_store env0 oc0 initState 3 [65]).2 3 =
            some (0, E) ∧
          E.length * 100 / PAGE_SIZE ≤ 80)) :=
  ⟨rfl, rfl, initState_fresh, by decide,
    store_admission_ratio env0 oc0 initState 3 [65] [0] rfl rfl initState_fresh (by decide)⟩

theorem oneEntryState_fresh : StoreFresh oneEntryState := by
  refine ⟨by decide, by decide, rfl, ?_, rfl⟩
  intro id e h
  by_cases hid : id = 0
  · subst hid
    obtain rfl : e = ⟨5, 9, 3, 1⟩ :=
      (Option.some.inj (show some (⟨5, 9, 3, 1⟩ : ZswapEntry) = some e from h)).symm
    decide
  · have hn : oneEntryState.entries id = none := by
      simp [oneEntryState, hid]
    rw [hn] at h
    exact Option.noConfusion h

set_option maxHeartbeats 2000000 in
/-- C3: duplicate replace.  A second store at an offset that already holds an
entry (when the zsmalloc fast path succeeds and the payload passes admission)
succeeds, bumps the duplicate-entry counter, erases the prior entry from the
tree and the LRU, drops its creation reference — freeing the record and its
handle when the post-decrement refcount is 0 — and a subsequent load at that
offset yields the newly stored page. -/
theorem store_duplicate_replace (env : ZswapEnv) (oc : StoreOracles) (s : ZswapState)
    (off : Nat) (page comp : Bytes) (did : Nat) (d : ZswapEntry)
    (hea : oc.entryAllocOk = true) (hz1 : oc.zsAllocOk1 = true)
    (hfresh : StoreFresh s) (hcount : atOffCount s off ≤ 1)
    (hdup : zswap_rb_search s off = some (did, d))
    (hcomp : env.compress page = some comp)
    (hratio : ¬comp.length * 100 / PAGE_SIZE > env.max_compression_ratio) :
    (zswap_frontswap_store env oc s off page).1 = 0 ∧
    (zswap_frontswap_store env oc s off page).2.duplicate_entry = s.duplicate_entry + 1 ∧
    did ∉ (zswap_frontswap_store env oc s off page).2.rb ∧
    did ∉ (zswap_frontswap_store env oc s off page).2.lru ∧
    (zswap_frontswap_store env oc s off page).2.entries did =
      (if d.refcount - 1 = 0 then none else some { d with refcount := d.refcount - 1 }) ∧
    (d.refcount - 1 = 0 →
      (zswap_frontswap_store env oc s off page).2.pool d.handle = none) ∧
    (∀ P2, env.decompress comp = some P2 →
      (zswap_frontswap_load env (zswap_frontswap_store env oc s off page).2 off).1 = 0 ∧
      (zswap_frontswap_load env (zswap_frontswap_store env oc s off page).2 off).2.1 =
        some P2) := by
  obtain ⟨hrb, hlru, hentf, hhandf, hpoolf⟩ := hfresh
  obtain ⟨ea, z1, z2, wbo⟩ := oc
  cases ea with
  | false => simp at hea
  | true =>
    cases z1 with
    | false => simp at hz1
    | true =>
      simp only [zswap_frontswap_store]
      rw [hcomp]
      dsimp only
      rw [if_neg hratio]
      have hinst := storeInstall_spec
        { s with
          nextEntry := s.nextEntry + 1
          entries := fun i => if i = s.nextEntry then some ⟨0, 0, 0, 1⟩ else s.entries i
          cpuBufHeld := true }
        s.nextEntry off comp false hrb (by dsimp only; exact if_pos rfl)
        (fun id d' hd hne => hhandf id d' (by
          have hd' := hd
          dsimp only at hd'
          rwa [if_neg hne] at hd'))
        (by
          rw [atOffCount_congr (t := { s with
            nextEntry := s.nextEntry + 1
            entries := fun i => if i = s.nextEntry then some ⟨0, 0, 0, 1⟩ else s.entries i
            cpuBufHeld := true }) (s := s) off rfl
            (fun id hid => by
              dsimp only
              rw [if_neg (fun hq : id = s.nextEntry => hrb (hq ▸ hid))])]
          exact hcount)
      have hdup2 : zswap_rb_search { s with
          nextEntry := s.nextEntry + 1
          entries := fun i => if i = s.nextEntry then some ⟨0, 0, 0, 1⟩ else s.entries i
          cpuBufHeld := true } off = some (did, d) := by
        rw [rb_search_congr (t := { s with
          nextEntry := s.nextEntry + 1
          entries := fun i => if i = s.nextEntry then some ⟨0, 0, 0, 1⟩ else s.entries i
          cpuBufHeld := true }) (s := s) off rfl
          (fun id hid => by
            dsimp only
            rw [if_neg (fun hq : id = s.nextEntry => hrb (hq ▸ hid))])]
        exact hdup
      obtain ⟨hd1, hd2, hd3, hd4, hd5⟩ := hinst.2.2.2.2 did d hdup2
      refine ⟨rfl, hd1, hd2, hd3, hd4, hd5, ?_⟩
      intro P2 hdecP
      exact load_after_install env _ off s.nextEntry s.nextHandle comp P2
        hinst.2.1 hinst.2.2.1 hdecP

/-- Witness for C3: replace the resident entry at offset 5 of the one-entry
state (refcount 1, so it is freed with handle 9) and load the new page back. -/
theorem store_duplicate_replace_witness :
    StoreFresh oneEntryState ∧
    zswap_rb_search oneEntryState 5 = some (0, ⟨5, 9, 3, 1⟩) ∧
    atOffCount oneEntryState 5 ≤ 1 ∧
    ((zswap_frontswap_store env0 oc0 oneEntryState 5 [66]).1 = 0 ∧
      (zswap_frontswap_store env0 oc0 oneEntryState 5 [66]).2.duplicate_entry =
        oneEntryState.duplicate_entry + 1 ∧
      0 ∉ (zswap_frontswap_store env0 oc0 oneEntryState 5 [66]).2.rb ∧
      0 ∉ (zswap_frontswap_store env0 oc0 oneEntryState 5 [66]).2.lru ∧
      (zswap_frontswap_store env0 oc0 oneEntryState 5 [66]).2.entries 0 =
        (if (⟨5, 9, 3, 1⟩ : ZswapEntry).refcount - 1 = 0 then none
         else some { (⟨5, 9, 3, 1⟩ : ZswapEntry) with
           refcount := (⟨5, 9, 3, 1⟩ : ZswapEntry).refcount - 1 }) ∧
      ((⟨5, 9, 3, 1⟩ : ZswapEntry).refcount - 1 = 0 →
        (zswap_frontswap_store env0 oc0 oneEntryState 5 [66]).2.pool 9 = none) ∧
      (∀ P2, env0.decompress [0] = some P2 →
        (zswap_frontswap_load env0
          (zswap_frontswap_store env0 oc0 oneEntryState 5 [66]).2 5).1 = 0 ∧
        (zswap_frontswap_load env0
          (zswap_frontswap_store env0 oc0 oneEntryState 5 [66]).2 5).2.1 = some P2)) :=
  ⟨oneEntryState_fresh, rfl, by decide,
    store_duplicate_replace env0 oc0 oneEntryState 5 [66] [0] 0 ⟨5, 9, 3, 1⟩
      rfl rfl oneEntryState_fresh (by decide) rfl rfl (by decide)⟩

set_option maxHeartbeats 1000000 in
/-- C8: failure cleanup.  Any store that returns an error releases everything
it acquired before returning: the scratch-frame ring is back at its original
level, the per-CPU buffer is released, the fresh entry record is freed, no
tree node was added (the final tree holds only ids it already held, and never
the fresh id), and every pool slot is either untouched or freed. -/
theorem store_failure_cleanup (env : ZswapEnv) (oc : StoreOracles) (s : ZswapState)
    (off : Nat) (page : Bytes)
    (hbuf : s.cpuBufHeld = false)
    (hent : s.entries s.nextEntry = none)
    (hrb : s.nextEntry ∉ s.rb)
    (hret : (zswap_frontswap_store env oc s off page).1 ≠ 0) :
    (zswap_frontswap_store env oc s off page).2.tmppages = s.tmppages ∧
    (zswap_frontswap_store env oc s off page).2.cpuBufHeld = false ∧
    (zswap_frontswap_store env oc s off page).2.entries s.nextEntry = none ∧
    (∀ id, id ∈ (zswap_frontswap_store env oc s off page).2.rb → id ∈ s.rb) ∧
    s.nextEntry ∉ (zswap_frontswap_store env oc s off page).2.rb ∧
    (∀ h, (zswap_frontswap_store env oc s off page).2.pool h = s.pool h ∨
      (zswap_frontswap_store env oc s off page).2.pool h = none) := by
  obtain ⟨ea, z1, z2, wbo⟩ := oc
  cases ea with
  | false =>
    exact ⟨rfl, hbuf, hent, fun id h => h, hrb, fun h => Or.inl rfl⟩
  | true =>
    simp only [zswap_frontswap_store] at hret ⊢
    cases hc : env.compress page with
    | none =>
      rw [hc] at hret
      dsimp only at hret ⊢
      exact ⟨rfl, rfl, by simp [storeReject], fun id h => h, hrb, fun h => Or.inl rfl⟩
    | some comp =>
      rw [hc] at hret
      dsimp only at hret ⊢
      by_cases hratio : comp.length * 100 / PAGE_SIZE > env.max_compression_ratio
      · rw [if_pos hratio] at hret ⊢
        exact ⟨rfl, rfl, by simp [storeReject], fun id h => h, hrb, fun h => Or.inl rfl⟩
      · rw [if_neg hratio] at hret ⊢
        cases z1 with
        | true => exact absurd rfl hret
        | false =>
          by_cases h0 : s.tmppages = 0
          · rw [if_neg (show ¬false = true by simp), if_pos h0] at hret ⊢
            exact ⟨rfl, rfl, by simp [storeReject], fun id h => h, hrb,
              fun h => Or.inl rfl⟩
          · rw [if_neg (show ¬false = true by simp), if_neg h0] at hret ⊢
            obtain ⟨w1, w2, w3, w4, w5, w6, w7, wsub, wlru, went, wped, wpool⟩ :=
              wb_preserves wbo 16
                { s with
                  nextEntry := s.nextEntry + 1
                  entries := fun i => if i = s.nextEntry then some ⟨0, 0, 0, 1⟩
                    else s.entries i
                  cpuBufHeld := false
                  writeback_attempted := s.writeback_attempted + 1
                  tmppages := s.tmppages - 1 }
            cases z2 with
            | true => exact absurd rfl hret
            | false =>
              refine ⟨?_, w4, by simp [storeReject], fun id h => wsub.subset h,
                fun hm => hrb (wsub.subset hm), fun h => wpool h⟩
              have w3' : (zswap_writeback_entries wbo 16
                  { s with
                    nextEntry := s.nextEntry + 1
                    entries := fun i => if i = s.nextEntry then some ⟨0, 0, 0, 1⟩
                      else s.entries i
                    cpuBufHeld := false
                    writeback_attempted := s.writeback_attempted + 1
                    tmppages := s.tmppages - 1 }).2.tmppages = s.tmppages - 1 := w3
              show (zswap_writeback_entries wbo 16
                  { s with
                    nextEntry := s.nextEntry + 1
                    entries := fun i => if i = s.nextEntry then some ⟨0, 0, 0, 1⟩
                      else s.entries i
                    cpuBufHeld := false
                    writeback_attempted := s.writeback_attempted + 1
                    tmppages := s.tmppages - 1 }).2.tmppages + 1 = s.tmppages
              rw [w3']
              omega

/-- Witness for C8: a store with a failing compressor on the boot state
returns -EINVAL and leaves no trace. -/
theorem store_failure_cleanup_witness :
    initState.cpuBufHeld = false ∧
    initState.entries initState.nextEntry = none ∧
    initState.nextEntry ∉ initState.rb ∧
    (zswap_frontswap_store envFail oc0 initState 0 [65]).1 ≠ 0 ∧
    ((zswap_frontswap_store envFail oc0 initState 0 [65]).2.tmppages =
        initState.tmppages ∧
      (zswap_frontswap_store envFail oc0 initState 0 [65]).2.cpuBufHeld = false ∧
      (zswap_frontswap_store envFail oc0 initState 0 [65]).2.entries
        initState.nextEntry = none ∧
      (∀ id, id ∈ (zswap_frontswap_store envFail oc0 initState 0 [65]).2.rb →
        id ∈ initState.rb) ∧
      initState.nextEntry ∉ (zswap_frontswap_store envFail oc0 initState 0 [65]).2.rb ∧
      (∀ h, (zswap_frontswap_store envFail oc0 initState 0 [65]).2.pool h =
          initState.pool h ∨
        (zswap_frontswap_store envFail oc0 initState 0 [65]).2.pool h = none)) :=
  ⟨rfl, rfl, by decide, by decide,
    store_failure_cleanup envFail oc0 initState 0 [65] rfl rfl (by decide) (by decide)⟩

end Zswap
